import Mathlib

/-!
Floating Sandbox — verification of spec claims against the simulation core.

Shallow embedding of the parts of the Floating Sandbox simulation core that
the claims C1..C10 are about, together with theorems settling each claim.

Numeric semantics: the C++ code computes over IEEE single-precision floats;
the embedding uses exact rational (and, for light diffusion which needs
Euclidean distances, real) arithmetic, i.e. the ideal arithmetic the spec's
algebraic statements are about.
-/

namespace FloatingSandbox

/-! ## Basic math primitives

Modelled from the spec: `Clamp` and `SmoothStep` of `GameCore/GameMath.h`,
which is missing from the source tree (spec §2 lists "2D vectors, clamping,
smoothstep, exponential/linear interpolation" as the leaf math utilities; the
standard smoothstep is the clamped cubic 3x² − 2x³). -/

/-- Modelled from the spec: `Clamp(x, lo, hi)` of GameMath.h (missing from the
source tree). -/
def clampQ (x lo hi : ℚ) : ℚ := min (max x lo) hi

/-- Modelled from the spec: `SmoothStep(lEdge, rEdge, x)` of GameMath.h
(missing from the source tree): clamp the progress to [0,1] and apply the
cubic 3x² − 2x³. -/
def smoothStepQ (lEdge rEdge x : ℚ) : ℚ :=
  let p := clampQ ((x - lEdge) / (rEdge - lEdge)) 0 1
  p * p * (3 - 2 * p)

theorem clampQ_le (x lo hi : ℚ) : clampQ x lo hi ≤ hi := min_le_right _ _

theorem le_clampQ (x lo hi : ℚ) (h : lo ≤ hi) : lo ≤ clampQ x lo hi :=
  le_min (le_max_right _ _) h

/-! ## C3: ImpactBombGadget state machine

From `ImpactBombGadget::Update` (src/unnamed/part_004, lines 36-126).
The trigger constant `GameParameters::BombsTemperatureTrigger` and the
fadeout constant `ExplosionFadeoutStepsCount` live in headers missing from
the source tree, so they are kept as parameters. -/

inductive ImpactBombState where
  | Idle
  | TriggeringExplosion
  | Exploding
  | Expired
  deriving DecidableEq, Repr

structure ImpactBombGadget where
  state : ImpactBombState
  explosionFadeoutCounter : ℕ
  deriving DecidableEq, Repr

/-- Mirrors `ImpactBombGadget::Update` (part_004 lines 36-126). `temperature` is the
host particle's current temperature `mShipPoints.GetTemperature(mPointIndex)`;
the returned `Bool` is the C++ return value (`false` on `Expired`). Blast-side
effects (explosion injection, event emission) do not alter the state machine
and are not modelled. -/
def ImpactBombGadget.update (bombsTemperatureTrigger : ℚ)
    (explosionFadeoutStepsCount : ℕ) (temperature : ℚ)
    (g : ImpactBombGadget) : ImpactBombGadget × Bool :=
  match g.state with
  | .Idle =>
      if bombsTemperatureTrigger < temperature then
        ({ g with state := .TriggeringExplosion }, true)
      else
        (g, true)
  | .TriggeringExplosion =>
      ({ g with state := .Exploding }, true)
  | .Exploding =>
      let c := g.explosionFadeoutCounter + 1
      if explosionFadeoutStepsCount ≤ c then
        ({ g with state := .Expired, explosionFadeoutCounter := c }, true)
      else
        ({ g with explosionFadeoutCounter := c }, true)
  | .Expired =>
      (g, false)

/-- The gadget after `n` calls of `Update`, the `k`-th call seeing particle
temperature `temps k`. -/
def ImpactBombGadget.run (trigger : ℚ) (fadeSteps : ℕ) (temps : ℕ → ℚ)
    (g : ImpactBombGadget) : ℕ → ImpactBombGadget
  | 0 => g
  | n + 1 =>
      (ImpactBombGadget.update trigger fadeSteps (temps n)
        (ImpactBombGadget.run trigger fadeSteps temps g n)).1

theorem impactBomb_run_succ (trigger : ℚ) (fadeSteps : ℕ) (temps : ℕ → ℚ)
    (g : ImpactBombGadget) (n : ℕ) :
    ImpactBombGadget.run trigger fadeSteps temps g (n + 1) =
      (ImpactBombGadget.update trigger fadeSteps (temps n)
        (ImpactBombGadget.run trigger fadeSteps temps g n)).1 := rfl

theorem impactBomb_idle_stays (trigger : ℚ) (fadeSteps : ℕ) (temps : ℕ → ℚ)
    (g : ImpactBombGadget) (hg : g.state = .Idle) (n : ℕ)
    (h : ∀ k < n, temps k ≤ trigger) :
    (ImpactBombGadget.run trigger fadeSteps temps g n).state = .Idle := by
  induction n with
  | zero => exact hg
  | succ m ih =>
      have hm : (ImpactBombGadget.run trigger fadeSteps temps g m).state = .Idle :=
        ih (fun k hk => h k (Nat.lt_succ_of_lt hk))
      have hle : temps m ≤ trigger := h m (Nat.lt_succ_self m)
      rw [impactBomb_run_succ]
      unfold ImpactBombGadget.update
      rw [hm]
      simp only
      rw [if_neg (by exact not_lt.mpr hle)]
      exact hm

theorem impactBomb_exploding_run (trigger : ℚ) (fadeSteps : ℕ) (temps : ℕ → ℚ)
    (g : ImpactBombGadget) (hg : g.state = .Exploding)
    (hc : g.explosionFadeoutCounter = 0) (k : ℕ) (hk : k < fadeSteps) :
    (ImpactBombGadget.run trigger fadeSteps temps g k).state = .Exploding ∧
      (ImpactBombGadget.run trigger fadeSteps temps g k).explosionFadeoutCounter = k := by
  induction k with
  | zero => exact ⟨hg, hc⟩
  | succ m ih =>
      obtain ⟨hstate, hcount⟩ := ih (Nat.lt_of_succ_lt hk)
      rw [impactBomb_run_succ]
      unfold ImpactBombGadget.update
      rw [hstate]
      simp only [hcount]
      rw [if_neg (by omega)]
      exact ⟨rfl, rfl⟩

/-- C3. An `ImpactBombGadget` transitions Idle→TriggeringExplosion on exactly
the first `Update` call at which the host particle's temperature exceeds the
trigger constant (while all earlier calls see temperatures at or below it, the
gadget stays Idle), and transitions Exploding→Expired on exactly the
`fadeSteps`-th `Update` call counted from entering the Exploding state — on
every earlier call it is still Exploding. -/
theorem impactBombGadget_transition_exactness
    (trigger : ℚ) (fadeSteps : ℕ) (temps : ℕ → ℚ)
    (g0 : ImpactBombGadget) (hg0 : g0.state = .Idle)
    (gE : ImpactBombGadget) (hgE : gE.state = .Exploding)
    (hcE : gE.explosionFadeoutCounter = 0)
    (n : ℕ) (hbefore : ∀ k < n, temps k ≤ trigger) (hnow : trigger < temps n)
    (hpos : 0 < fadeSteps) :
    ((ImpactBombGadget.run trigger fadeSteps temps g0 n).state = .Idle ∧
      (ImpactBombGadget.run trigger fadeSteps temps g0 (n + 1)).state =
        .TriggeringExplosion) ∧
    ((∀ k < fadeSteps,
        (ImpactBombGadget.run trigger fadeSteps temps gE k).state = .Exploding) ∧
      (ImpactBombGadget.run trigger fadeSteps temps gE fadeSteps).state =
        .Expired) := by
  refine ⟨⟨impactBomb_idle_stays trigger fadeSteps temps g0 hg0 n hbefore, ?_⟩,
    ⟨fun k hk => (impactBomb_exploding_run trigger fadeSteps temps gE hgE hcE k hk).1, ?_⟩⟩
  · have hidle : (ImpactBombGadget.run trigger fadeSteps temps g0 n).state = .Idle :=
      impactBomb_idle_stays trigger fadeSteps temps g0 hg0 n hbefore
    rw [impactBomb_run_succ]
    unfold ImpactBombGadget.update
    rw [hidle]
    simp only
    rw [if_pos hnow]
  · obtain ⟨hstate, hcount⟩ :=
      impactBomb_exploding_run trigger fadeSteps temps gE hgE hcE (fadeSteps - 1)
        (by omega)
    have hsucc : fadeSteps = (fadeSteps - 1) + 1 := by omega
    nth_rewrite 2 [hsucc]
    rw [impactBomb_run_succ]
    unfold ImpactBombGadget.update
    rw [hstate]
    simp only [hcount]
    rw [if_pos (by omega)]

/-- Witness for C3 at a concrete input: trigger 100, 3 fadeout steps,
temperatures 50, 80, 150, 200, … (first exceedance on the third call). -/
theorem impactBombGadget_transition_exactness_witness :
    ((ImpactBombGadget.run 100 3 (fun k => 50 + 50 * k) ⟨.Idle, 0⟩ 2).state = .Idle ∧
      (ImpactBombGadget.run 100 3 (fun k => 50 + 50 * k) ⟨.Idle, 0⟩ 3).state =
        .TriggeringExplosion) ∧
    ((∀ k < 3,
        (ImpactBombGadget.run 100 3 (fun k => 50 + 50 * k) ⟨.Exploding, 0⟩ k).state =
          .Exploding) ∧
      (ImpactBombGadget.run 100 3 (fun k => 50 + 50 * k) ⟨.Exploding, 0⟩ 3).state =
        .Expired) := by
  have h := impactBombGadget_transition_exactness 100 3 (fun k => 50 + 50 * k)
    ⟨.Idle, 0⟩ rfl ⟨.Exploding, 0⟩ rfl rfl 2
    (by intro k hk; interval_cases k <;> norm_num) (by norm_num) (by norm_num)
  exact h

/-! ## C1: SWE interactive wave state machine — Restart continuity

From `OceanSurface::SWEInteractiveWaveStateMachine` (src/unnamed/part_004,
lines 1174-1332). `CalculateRisingPhaseDuration` is the empirically-fitted
curve `max(2.53079 − 2.572298·e^(−9.031207·|Δh|), 0)`; being transcendental it
is kept as an abstract function parameter `calcDur` (the theorem holds for
every choice of it). -/

inductive WavePhaseType where
  | Rise
  | Fall
  deriving DecidableEq, Repr

structure SWEInteractiveWaveStateMachine where
  centerIndex : ℕ
  originalHeight : ℚ
  currentPhaseStartHeight : ℚ
  currentPhaseTargetHeight : ℚ
  currentHeight : ℚ
  startSimulationTime : ℚ
  currentWavePhase : WavePhaseType
  risingPhaseDuration : ℚ
  fallingPhaseDecayCoefficient : ℚ
  deriving DecidableEq, Repr

/-- Mirrors `SWEInteractiveWaveStateMachine::Restart` (part_004 lines 1191-1249).
`calcDur` stands for `CalculateRisingPhaseDuration`. -/
def SWEInteractiveWaveStateMachine.restart (calcDur : ℚ → ℚ)
    (s : SWEInteractiveWaveStateMachine) (restartHeight currentSimulationTime : ℚ) :
    SWEInteractiveWaveStateMachine :=
  match s.currentWavePhase with
  | .Rise =>
      let elapsed := currentSimulationTime - s.startSimulationTime
      let progressFraction := min (elapsed / s.risingPhaseDuration) (9 / 10)
      let newDuration := calcDur (restartHeight - s.originalHeight)
      let valueFraction := smoothStepQ 0 1 progressFraction
      { s with
        startSimulationTime := currentSimulationTime - newDuration * progressFraction
        currentPhaseTargetHeight := restartHeight
        currentPhaseStartHeight :=
          (s.currentHeight - restartHeight * valueFraction) / (1 - valueFraction)
        risingPhaseDuration := newDuration }
  | .Fall =>
      { s with
        currentPhaseStartHeight := s.currentHeight
        currentPhaseTargetHeight := restartHeight
        startSimulationTime := currentSimulationTime
        currentWavePhase := .Rise
        risingPhaseDuration := calcDur (restartHeight - s.originalHeight) }

/-- Mirrors `SWEInteractiveWaveStateMachine::Update` (part_004 lines 1266-1302).
Returns the optional height value (`none` signals completion) together with
the updated machine. -/
def SWEInteractiveWaveStateMachine.update
    (s : SWEInteractiveWaveStateMachine) (currentSimulationTime : ℚ) :
    Option ℚ × SWEInteractiveWaveStateMachine :=
  match s.currentWavePhase with
  | .Rise =>
      let elapsed := currentSimulationTime - s.startSimulationTime
      let smoothFactor := smoothStepQ 0 s.risingPhaseDuration elapsed
      let h := s.currentPhaseStartHeight +
        (s.currentPhaseTargetHeight - s.currentPhaseStartHeight) * smoothFactor
      (some h, { s with currentHeight := h })
  | .Fall =>
      let h := s.currentHeight +
        (s.currentPhaseTargetHeight - s.currentHeight) * s.fallingPhaseDecayCoefficient
      if |s.currentPhaseTargetHeight - h| < 1 / 1000 then
        (none, { s with currentHeight := h })
      else
        (some h, { s with currentHeight := h })

theorem smoothStepQ_lt_one (x : ℚ) (hx : x ≤ 9 / 10) :
    smoothStepQ 0 1 x < 1 := by
  have hrw : smoothStepQ 0 1 x =
      clampQ ((x - 0) / (1 - 0)) 0 1 * clampQ ((x - 0) / (1 - 0)) 0 1 *
        (3 - 2 * clampQ ((x - 0) / (1 - 0)) 0 1) := rfl
  rw [hrw]
  set p := clampQ ((x - 0) / (1 - 0)) 0 1 with hp
  have hp0 : 0 ≤ p := le_clampQ _ _ _ (by norm_num)
  have hp9 : p ≤ 9 / 10 := by
    rw [hp]
    unfold clampQ
    refine le_trans (min_le_left _ _) (max_le ?_ (by norm_num))
    simpa using hx
  have hA : 0 < 1 - p := by linarith
  have hB : 0 < 1 + 2 * p := by linarith
  nlinarith [mul_pos (mul_pos hA hA) hB]

/-- C1. `Restart` during the Rise phase is height-continuous: the height
computed by `Update` immediately after the `Restart` (at the same simulation
time `t`) equals the height held immediately before the `Restart` exactly —
in particular the two differ by less than any small epsilon, e.g. 1/1000.
The hypotheses rule out the degenerate zero-duration phases, in which the C++
code would divide by zero. -/
theorem interactiveWave_restart_continuity (calcDur : ℚ → ℚ)
    (s : SWEInteractiveWaveStateMachine) (restartHeight t : ℚ)
    (hphase : s.currentWavePhase = .Rise)
    (hdur : 0 < s.risingPhaseDuration)
    (hnew : 0 < calcDur (restartHeight - s.originalHeight)) :
    ((s.restart calcDur restartHeight t).update t).1 = some s.currentHeight ∧
      |((s.restart calcDur restartHeight t).update t).2.currentHeight -
        s.currentHeight| < 1 / 1000 := by
  have hphase' : (s.restart calcDur restartHeight t).currentWavePhase = .Rise := by
    unfold SWEInteractiveWaveStateMachine.restart
    rw [hphase]
  set pf := min ((t - s.startSimulationTime) / s.risingPhaseDuration) (9 / 10) with hpf
  have hpf9 : pf ≤ 9 / 10 := min_le_right _ _
  set vf := smoothStepQ 0 1 pf with hvf
  set D := calcDur (restartHeight - s.originalHeight) with hD
  have hD0 : D ≠ 0 := ne_of_gt hnew
  -- the restarted machine, unfolded
  have hrestart : s.restart calcDur restartHeight t =
      { s with
        startSimulationTime := t - D * pf
        currentPhaseTargetHeight := restartHeight
        currentPhaseStartHeight := (s.currentHeight - restartHeight * vf) / (1 - vf)
        risingPhaseDuration := D } := by
    unfold SWEInteractiveWaveStateMachine.restart
    rw [hphase]
  -- the smooth factor recomputed by Update equals the one used by Restart
  have hsf : smoothStepQ 0 D (t - (t - D * pf)) = vf := by
    have helapsed : t - (t - D * pf) = D * pf := by ring
    rw [helapsed, hvf]
    unfold smoothStepQ
    have : (D * pf - 0) / (D - 0) = (pf - 0) / (1 - 0) := by
      field_simp
    rw [this]
  have hvf1 : vf < 1 := by
    rw [hvf]; exact smoothStepQ_lt_one pf hpf9
  have hvfne : (1 : ℚ) - vf ≠ 0 := by
    intro hcon
    have : vf = 1 := by linarith
    exact absurd this (ne_of_lt hvf1)
  -- the height Update computes after the Restart
  have hupd : ((s.restart calcDur restartHeight t).update t).1 =
      some ((s.currentHeight - restartHeight * vf) / (1 - vf) +
        (restartHeight - (s.currentHeight - restartHeight * vf) / (1 - vf)) * vf) ∧
      ((s.restart calcDur restartHeight t).update t).2.currentHeight =
      (s.currentHeight - restartHeight * vf) / (1 - vf) +
        (restartHeight - (s.currentHeight - restartHeight * vf) / (1 - vf)) * vf := by
    rw [hrestart]
    unfold SWEInteractiveWaveStateMachine.update
    rw [hphase]
    simp only [hsf]
    exact ⟨trivial, trivial⟩
  have hval : (s.currentHeight - restartHeight * vf) / (1 - vf) +
      (restartHeight - (s.currentHeight - restartHeight * vf) / (1 - vf)) * vf =
      s.currentHeight := by
    field_simp
    ring
  refine ⟨?_, ?_⟩
  · rw [hupd.1, hval]
  · rw [hupd.2, hval]
    simp

/-- Witness for C1 at a concrete input: a machine rising from height 2
towards 5 since time 0, restarted at time 1 with new target 7, with the
duration curve taken constantly 2. -/
theorem interactiveWave_restart_continuity_witness :
    ((((⟨3, 2, 2, 5, 3, 0, .Rise, 2, 0⟩ :
        SWEInteractiveWaveStateMachine).restart (fun _ => 2) 7 1).update 1).1 =
      some 3) ∧
      (abs (((((⟨3, 2, 2, 5, 3, 0, .Rise, 2, 0⟩ :
        SWEInteractiveWaveStateMachine).restart (fun _ => 2) 7 1).update 1).2.currentHeight -
        3)) < 1 / 1000) := by
  have h := interactiveWave_restart_continuity (fun _ => 2)
    ⟨3, 2, 2, 5, 3, 0, .Rise, 2, 0⟩ 7 1 rfl (by norm_num) (by norm_num)
  exact h

/-! ## SWE grid layout

Modelled from the spec: the layout constants of `OceanSurface.h` are missing
from the source tree; spec §3 ("OceanSurface sample grid") describes a height
field over a fixed number of SWE cells spanning the world width
(`SamplesCount` cells) plus outer margins at each end, each margin made of
wave-generation samples and boundary-damping samples. The derived quantities
`SWEOuterLayerSamples = SWEWaveGenerationSamples + SWEBoundaryConditionsSamples`
and `SWETotalSamples = SWEOuterLayerSamples + SamplesCount + SWEOuterLayerSamples`
mirror the header's definitions that part_004 relies on. -/

structure SWEGridParams where
  samplesCount : ℕ
  sweWaveGenerationSamples : ℕ
  sweBoundaryConditionsSamples : ℕ
  deriving DecidableEq, Repr

def SWEGridParams.sweOuterLayerSamples (g : SWEGridParams) : ℕ :=
  g.sweWaveGenerationSamples + g.sweBoundaryConditionsSamples

def SWEGridParams.sweTotalSamples (g : SWEGridParams) : ℕ :=
  g.sweOuterLayerSamples + g.samplesCount + g.sweOuterLayerSamples

/-- The SWE height and velocity fields (`mHeightField`, `mVelocityField`),
as total functions from cell index to value. -/
structure SWEFields where
  heightField : ℕ → ℚ
  velocityField : ℕ → ℚ

/-! ## C4: ApplyDampingBoundaryConditions

From `OceanSurface::ApplyDampingBoundaryConditions` (src/unnamed/part_004,
lines 943-963): for `i` in `[0, SWEBoundaryConditionsSamples)`, with damping
factor `i / SWEBoundaryConditionsSamples`, the height cells `i` and
`total − 1 − i` are pulled toward `SWEHeightFieldOffset` and the velocity
cells `i` and `total − 1 − i + 1` are scaled. The rest offset
`SWEHeightFieldOffset` is a header constant missing from the source tree and
is kept as a parameter. -/

/-- The body of the loop of `ApplyDampingBoundaryConditions` for one `i`. -/
def dampingStep (g : SWEGridParams) (offset : ℚ) (st : SWEFields) (i : ℕ) :
    SWEFields :=
  let damping : ℚ := (i : ℚ) / (g.sweBoundaryConditionsSamples : ℚ)
  let r := g.sweTotalSamples - 1 - i
  { heightField := fun idx =>
      if idx = i then (st.heightField i - offset) * damping + offset
      else if idx = r then (st.heightField r - offset) * damping + offset
      else st.heightField idx
    velocityField := fun idx =>
      if idx = i then st.velocityField i * damping
      else if idx = r + 1 then st.velocityField (r + 1) * damping
      else st.velocityField idx }

/-- Mirrors `OceanSurface::ApplyDampingBoundaryConditions` (part_004 lines 943-963). -/
def applyDampingBoundaryConditions (g : SWEGridParams) (offset : ℚ)
    (st : SWEFields) : SWEFields :=
  (List.range g.sweBoundaryConditionsSamples).foldl (dampingStep g offset) st

theorem dampingStep_heightField_untouched (g : SWEGridParams) (offset : ℚ)
    (st : SWEFields) (i idx : ℕ) (h1 : idx ≠ i)
    (h2 : idx ≠ g.sweTotalSamples - 1 - i) :
    (dampingStep g offset st i).heightField idx = st.heightField idx := by
  unfold dampingStep
  simp only [if_neg h1, if_neg h2]

theorem dampingStep_velocityField_untouched (g : SWEGridParams) (offset : ℚ)
    (st : SWEFields) (i idx : ℕ) (h1 : idx ≠ i)
    (h2 : idx ≠ g.sweTotalSamples - 1 - i + 1) :
    (dampingStep g offset st i).velocityField idx = st.velocityField idx := by
  unfold dampingStep
  simp only [if_neg h1, if_neg h2]

theorem dampingStep_heightField_write_left (g : SWEGridParams) (offset : ℚ)
    (st : SWEFields) (i : ℕ) :
    (dampingStep g offset st i).heightField i =
      (st.heightField i - offset) *
        ((i : ℚ) / (g.sweBoundaryConditionsSamples : ℚ)) + offset := by
  unfold dampingStep
  dsimp only
  rw [if_pos rfl]

theorem dampingStep_velocityField_write_left (g : SWEGridParams) (offset : ℚ)
    (st : SWEFields) (i : ℕ) :
    (dampingStep g offset st i).velocityField i =
      st.velocityField i * ((i : ℚ) / (g.sweBoundaryConditionsSamples : ℚ)) := by
  unfold dampingStep
  dsimp only
  rw [if_pos rfl]

theorem dampingStep_heightField_write_right (g : SWEGridParams) (offset : ℚ)
    (st : SWEFields) (i : ℕ) (h : g.sweTotalSamples - 1 - i ≠ i) :
    (dampingStep g offset st i).heightField (g.sweTotalSamples - 1 - i) =
      (st.heightField (g.sweTotalSamples - 1 - i) - offset) *
        ((i : ℚ) / (g.sweBoundaryConditionsSamples : ℚ)) + offset := by
  unfold dampingStep
  dsimp only
  rw [if_neg h, if_pos rfl]

theorem dampingStep_velocityField_write_right (g : SWEGridParams) (offset : ℚ)
    (st : SWEFields) (i : ℕ) (h : g.sweTotalSamples - 1 - i + 1 ≠ i) :
    (dampingStep g offset st i).velocityField (g.sweTotalSamples - 1 - i + 1) =
      st.velocityField (g.sweTotalSamples - 1 - i + 1) *
        ((i : ℚ) / (g.sweBoundaryConditionsSamples : ℚ)) := by
  unfold dampingStep
  dsimp only
  rw [if_neg h, if_pos rfl]

theorem dampingFold_heightField_untouched (g : SWEGridParams) (offset : ℚ)
    (l : List ℕ) (st : SWEFields) (idx : ℕ)
    (h : ∀ i ∈ l, idx ≠ i ∧ idx ≠ g.sweTotalSamples - 1 - i) :
    (l.foldl (dampingStep g offset) st).heightField idx = st.heightField idx := by
  induction l generalizing st with
  | nil => rfl
  | cons i tl ih =>
      obtain ⟨hi1, hi2⟩ := h i (List.mem_cons_self i tl)
      have htl := fun j hj => h j (List.mem_cons_of_mem i hj)
      simp only [List.foldl_cons]
      rw [ih (dampingStep g offset st i) htl]
      exact dampingStep_heightField_untouched g offset st i idx hi1 hi2

theorem dampingFold_velocityField_untouched (g : SWEGridParams) (offset : ℚ)
    (l : List ℕ) (st : SWEFields) (idx : ℕ)
    (h : ∀ i ∈ l, idx ≠ i ∧ idx ≠ g.sweTotalSamples - 1 - i + 1) :
    (l.foldl (dampingStep g offset) st).velocityField idx =
      st.velocityField idx := by
  induction l generalizing st with
  | nil => rfl
  | cons i tl ih =>
      obtain ⟨hi1, hi2⟩ := h i (List.mem_cons_self i tl)
      have htl := fun j hj => h j (List.mem_cons_of_mem i hj)
      simp only [List.foldl_cons]
      rw [ih (dampingStep g offset st i) htl]
      exact dampingStep_velocityField_untouched g offset st i idx hi1 hi2

/-- C4. After `ApplyDampingBoundaryConditions`, at each end of the SWE grid
the outermost boundary cell's height equals exactly the rest offset and the
damped velocity there equals exactly zero (damping factor 0), while the last
(innermost) damped boundary cell is scaled by the factor
`(SWEBoundaryConditionsSamples − 1) / SWEBoundaryConditionsSamples`. -/
theorem applyDampingBoundaryConditions_ends (g : SWEGridParams) (offset : ℚ)
    (st : SWEFields) (hbc : 1 ≤ g.sweBoundaryConditionsSamples) :
    (applyDampingBoundaryConditions g offset st).heightField 0 = offset ∧
    (applyDampingBoundaryConditions g offset st).velocityField 0 = 0 ∧
    (applyDampingBoundaryConditions g offset st).heightField
      (g.sweTotalSamples - 1) = offset ∧
    (applyDampingBoundaryConditions g offset st).velocityField
      g.sweTotalSamples = 0 ∧
    (applyDampingBoundaryConditions g offset st).heightField
      (g.sweBoundaryConditionsSamples - 1) =
      (st.heightField (g.sweBoundaryConditionsSamples - 1) - offset) *
        (((g.sweBoundaryConditionsSamples : ℚ) - 1) /
          (g.sweBoundaryConditionsSamples : ℚ)) + offset ∧
    (applyDampingBoundaryConditions g offset st).velocityField
      (g.sweBoundaryConditionsSamples - 1) =
      st.velocityField (g.sweBoundaryConditionsSamples - 1) *
        (((g.sweBoundaryConditionsSamples : ℚ) - 1) /
          (g.sweBoundaryConditionsSamples : ℚ)) ∧
    (applyDampingBoundaryConditions g offset st).heightField
      (g.sweTotalSamples - g.sweBoundaryConditionsSamples) =
      (st.heightField (g.sweTotalSamples - g.sweBoundaryConditionsSamples) -
        offset) *
        (((g.sweBoundaryConditionsSamples : ℚ) - 1) /
          (g.sweBoundaryConditionsSamples : ℚ)) + offset ∧
    (applyDampingBoundaryConditions g offset st).velocityField
      (g.sweTotalSamples - g.sweBoundaryConditionsSamples + 1) =
      st.velocityField
        (g.sweTotalSamples - g.sweBoundaryConditionsSamples + 1) *
        (((g.sweBoundaryConditionsSamples : ℚ) - 1) /
          (g.sweBoundaryConditionsSamples : ℚ)) := by
  have hT : g.sweTotalSamples =
      g.sweWaveGenerationSamples + g.sweBoundaryConditionsSamples +
        g.samplesCount +
        (g.sweWaveGenerationSamples + g.sweBoundaryConditionsSamples) := rfl
  have hzero : ((g.sweBoundaryConditionsSamples : ℚ) - 1) /
      (g.sweBoundaryConditionsSamples : ℚ) =
      ((g.sweBoundaryConditionsSamples - 1 : ℕ) : ℚ) /
        (g.sweBoundaryConditionsSamples : ℚ) := by
    rw [Nat.cast_sub hbc]
    norm_num
  have hfront : List.range g.sweBoundaryConditionsSamples =
      0 :: (List.range (g.sweBoundaryConditionsSamples - 1)).map Nat.succ := by
    conv_lhs => rw [show g.sweBoundaryConditionsSamples =
      (g.sweBoundaryConditionsSamples - 1) + 1 from by omega]
    rw [List.range_succ_eq_map]
  have hback : List.range g.sweBoundaryConditionsSamples =
      List.range (g.sweBoundaryConditionsSamples - 1) ++
        [g.sweBoundaryConditionsSamples - 1] := by
    conv_lhs => rw [show g.sweBoundaryConditionsSamples =
      (g.sweBoundaryConditionsSamples - 1) + 1 from by omega]
    rw [List.range_succ]
  have hres : applyDampingBoundaryConditions g offset st =
      (List.range g.sweBoundaryConditionsSamples).foldl
        (dampingStep g offset) st := rfl
  refine ⟨?_, ?_, ?_, ?_, ?_, ?_, ?_, ?_⟩
  · -- height at 0
    rw [hres, hfront]
    simp only [List.foldl_cons]
    rw [dampingFold_heightField_untouched g offset _ _ 0
      (by
        intro i hi
        simp only [List.mem_map, List.mem_range] at hi
        obtain ⟨j, hj, rfl⟩ := hi
        exact ⟨by omega, by omega⟩)]
    unfold dampingStep
    simp
  · -- velocity at 0
    rw [hres, hfront]
    simp only [List.foldl_cons]
    rw [dampingFold_velocityField_untouched g offset _ _ 0
      (by
        intro i hi
        simp only [List.mem_map, List.mem_range] at hi
        obtain ⟨j, hj, rfl⟩ := hi
        exact ⟨by omega, by omega⟩)]
    unfold dampingStep
    simp
  · -- height at total - 1
    rw [hres, hfront]
    simp only [List.foldl_cons]
    rw [dampingFold_heightField_untouched g offset _ _ (g.sweTotalSamples - 1)
      (by
        intro i hi
        simp only [List.mem_map, List.mem_range] at hi
        obtain ⟨j, hj, rfl⟩ := hi
        exact ⟨by omega, by omega⟩)]
    unfold dampingStep
    dsimp only
    rw [if_neg (by omega : g.sweTotalSamples - 1 ≠ 0),
      if_pos (by omega : g.sweTotalSamples - 1 = g.sweTotalSamples - 1 - 0)]
    simp
  · -- velocity at total
    rw [hres, hfront]
    simp only [List.foldl_cons]
    rw [dampingFold_velocityField_untouched g offset _ _ g.sweTotalSamples
      (by
        intro i hi
        simp only [List.mem_map, List.mem_range] at hi
        obtain ⟨j, hj, rfl⟩ := hi
        exact ⟨by omega, by omega⟩)]
    unfold dampingStep
    dsimp only
    rw [if_neg (by omega : g.sweTotalSamples ≠ 0),
      if_pos (by omega : g.sweTotalSamples = g.sweTotalSamples - 1 - 0 + 1)]
    simp
  · -- height at boundary - 1 (innermost damped, left)
    rw [hres, hback, List.foldl_append]
    simp only [List.foldl_cons, List.foldl_nil]
    have hmid := dampingFold_heightField_untouched g offset
      (List.range (g.sweBoundaryConditionsSamples - 1)) st
      (g.sweBoundaryConditionsSamples - 1)
      (by
        intro i hi
        simp only [List.mem_range] at hi
        exact ⟨by omega, by omega⟩)
    rw [dampingStep_heightField_write_left, hmid, hzero]
  · -- velocity at boundary - 1 (innermost damped, left)
    rw [hres, hback, List.foldl_append]
    simp only [List.foldl_cons, List.foldl_nil]
    have hmid := dampingFold_velocityField_untouched g offset
      (List.range (g.sweBoundaryConditionsSamples - 1)) st
      (g.sweBoundaryConditionsSamples - 1)
      (by
        intro i hi
        simp only [List.mem_range] at hi
        exact ⟨by omega, by omega⟩)
    rw [dampingStep_velocityField_write_left, hmid, hzero]
  · -- height at total - boundary (innermost damped, right)
    rw [hres, hback, List.foldl_append]
    simp only [List.foldl_cons, List.foldl_nil]
    rw [show g.sweTotalSamples - g.sweBoundaryConditionsSamples =
        g.sweTotalSamples - 1 - (g.sweBoundaryConditionsSamples - 1) from by omega]
    have hmid := dampingFold_heightField_untouched g offset
      (List.range (g.sweBoundaryConditionsSamples - 1)) st
      (g.sweTotalSamples - 1 - (g.sweBoundaryConditionsSamples - 1))
      (by
        intro i hi
        simp only [List.mem_range] at hi
        exact ⟨by omega, by omega⟩)
    rw [dampingStep_heightField_write_right g offset _ _ (by omega), hmid, hzero]
  · -- velocity at total - boundary + 1 (innermost damped, right)
    rw [hres, hback, List.foldl_append]
    simp only [List.foldl_cons, List.foldl_nil]
    rw [show g.sweTotalSamples - g.sweBoundaryConditionsSamples + 1 =
        g.sweTotalSamples - 1 - (g.sweBoundaryConditionsSamples - 1) + 1 from by omega]
    have hmid := dampingFold_velocityField_untouched g offset
      (List.range (g.sweBoundaryConditionsSamples - 1)) st
      (g.sweTotalSamples - 1 - (g.sweBoundaryConditionsSamples - 1) + 1)
      (by
        intro i hi
        simp only [List.mem_range] at hi
        exact ⟨by omega, by omega⟩)
    rw [dampingStep_velocityField_write_right g offset _ _ (by omega), hmid, hzero]

/-- Witness for C4 at a concrete input: 3 boundary samples, 1 wave-generation
sample, 8 interior samples (total 16 cells), rest offset 100, and fields
holding constant height 107 and velocity 4. -/
theorem applyDampingBoundaryConditions_ends_witness :
    letI g : SWEGridParams := ⟨8, 1, 3⟩
    letI res := applyDampingBoundaryConditions g 100 ⟨fun _ => 107, fun _ => 4⟩
    res.heightField 0 = 100 ∧
    res.velocityField 0 = 0 ∧
    res.heightField 15 = 100 ∧
    res.velocityField 16 = 0 ∧
    res.heightField 2 = (107 - 100) * ((3 - 1) / 3) + 100 ∧
    res.velocityField 2 = 4 * ((3 - 1) / 3) ∧
    res.heightField 13 = (107 - 100) * ((3 - 1) / 3) + 100 ∧
    res.velocityField 14 = 4 * ((3 - 1) / 3) := by
  have h := applyDampingBoundaryConditions_ends ⟨8, 1, 3⟩ 100
    ⟨fun _ => 107, fun _ => 4⟩ (by norm_num)
  exact h

/-! ## C10: SetSWEWaveHeight write-range safety

From `OceanSurface::SetSWEWaveHeight` (src/unnamed/part_004, lines 716-731):
a window of `SWEWaveStateMachinePerturbedSamplesCount` cells centred on the
wave state machine's center index is written with the requested height, each
cell guarded by
`idx >= SWEBoundaryConditionsSamples && idx < SWEOuterLayerSamples + SamplesCount + SWEWaveGenerationSamples`.
The window constant is a header constant missing from the source tree and is
kept as a parameter; index arithmetic is over ℤ as in the C++ `int`. -/

/-- The body of the loop of `SetSWEWaveHeight` for one window offset `i`:
write `height` at `firstSampleIndex + i` when that index passes the guard. -/
def sweWriteStep (g : SWEGridParams) (firstSampleIndex : ℤ) (height : ℚ)
    (f : ℕ → ℚ) (i : ℕ) : ℕ → ℚ :=
  let idx : ℤ := firstSampleIndex + (i : ℤ)
  if (g.sweBoundaryConditionsSamples : ℤ) ≤ idx ∧
      idx < (g.sweOuterLayerSamples : ℤ) + (g.samplesCount : ℤ) +
        (g.sweWaveGenerationSamples : ℤ) then
    fun j => if (j : ℤ) = idx then height else f j
  else f

/-- Mirrors `OceanSurface::SetSWEWaveHeight` (part_004 lines 716-731). -/
def setSWEWaveHeight (g : SWEGridParams) (perturbedSamplesCount : ℕ)
    (centerIndex : ℕ) (height : ℚ) (hf : ℕ → ℚ) : ℕ → ℚ :=
  (List.range perturbedSamplesCount).foldl
    (sweWriteStep g ((centerIndex : ℤ) - ((perturbedSamplesCount / 2 : ℕ) : ℤ))
      height) hf

theorem sweWriteStep_untouched (g : SWEGridParams) (first : ℤ) (height : ℚ)
    (f : ℕ → ℚ) (i idx : ℕ)
    (hout : idx < g.sweBoundaryConditionsSamples ∨
      g.sweOuterLayerSamples + g.samplesCount + g.sweWaveGenerationSamples ≤ idx) :
    sweWriteStep g first height f i idx = f idx := by
  unfold sweWriteStep
  by_cases hguard : (g.sweBoundaryConditionsSamples : ℤ) ≤ first + (i : ℤ) ∧
      first + (i : ℤ) < (g.sweOuterLayerSamples : ℤ) + (g.samplesCount : ℤ) +
        (g.sweWaveGenerationSamples : ℤ)
  · rw [if_pos hguard]
    have hne : ((idx : ℕ) : ℤ) ≠ first + (i : ℤ) := by
      rcases hout with hlt | hge
      · omega
      · omega
    rw [if_neg hne]
  · rw [if_neg hguard]

theorem setSWEWaveHeight_untouched_outside (g : SWEGridParams)
    (perturbedSamplesCount centerIndex : ℕ) (height : ℚ) (hf : ℕ → ℚ)
    (idx : ℕ)
    (hout : idx < g.sweBoundaryConditionsSamples ∨
      g.sweOuterLayerSamples + g.samplesCount + g.sweWaveGenerationSamples ≤ idx) :
    setSWEWaveHeight g perturbedSamplesCount centerIndex height hf idx =
      hf idx := by
  unfold setSWEWaveHeight
  generalize (List.range perturbedSamplesCount) = l
  generalize ((centerIndex : ℤ) - ((perturbedSamplesCount / 2 : ℕ) : ℤ)) = first
  induction l generalizing hf with
  | nil => rfl
  | cons i tl ih =>
      simp only [List.foldl_cons]
      rw [ih]
      exact sweWriteStep_untouched g first height hf i idx hout

/-- C10. `SetSWEWaveHeight` writes only into height-field cells with index in
`[SWEBoundaryConditionsSamples, SWEOuterLayerSamples + SamplesCount + SWEWaveGenerationSamples)`
(perturbation cells falling outside that interval are silently skipped), that
upper bound equals `SWETotalSamples − SWEBoundaryConditionsSamples`, so the
boundary-damping cells at both ends are never overwritten and every written
index is within the `SWETotalSamples`-cell height field. -/
theorem setSWEWaveHeight_write_range (g : SWEGridParams)
    (perturbedSamplesCount centerIndex : ℕ) (height : ℚ) (hf : ℕ → ℚ) :
    (∀ idx, setSWEWaveHeight g perturbedSamplesCount centerIndex height hf idx ≠
        hf idx →
      g.sweBoundaryConditionsSamples ≤ idx ∧
      idx < g.sweOuterLayerSamples + g.samplesCount + g.sweWaveGenerationSamples ∧
      ¬ (g.sweTotalSamples - g.sweBoundaryConditionsSamples ≤ idx) ∧
      idx < g.sweTotalSamples) ∧
    g.sweOuterLayerSamples + g.samplesCount + g.sweWaveGenerationSamples =
      g.sweTotalSamples - g.sweBoundaryConditionsSamples := by
  have hT : g.sweTotalSamples =
      g.sweWaveGenerationSamples + g.sweBoundaryConditionsSamples +
        g.samplesCount +
        (g.sweWaveGenerationSamples + g.sweBoundaryConditionsSamples) := rfl
  have hO : g.sweOuterLayerSamples =
      g.sweWaveGenerationSamples + g.sweBoundaryConditionsSamples := rfl
  refine ⟨?_, by omega⟩
  intro idx hne
  by_cases hin : idx < g.sweBoundaryConditionsSamples ∨
      g.sweOuterLayerSamples + g.samplesCount + g.sweWaveGenerationSamples ≤ idx
  · exact absurd
      (setSWEWaveHeight_untouched_outside g perturbedSamplesCount centerIndex
        height hf idx hin) hne
  · push_neg at hin
    refine ⟨hin.1, hin.2, by omega, by omega⟩

/-- Witness for C10 at a concrete input: grid with 8 interior samples,
1 wave-generation sample and 3 boundary samples (total 16), a 5-cell window
centred at cell 0 — the boundary cell 0 is skipped, and the same for a window
centred at the right edge 15. -/
theorem setSWEWaveHeight_write_range_witness :
    setSWEWaveHeight ⟨8, 1, 3⟩ 5 0 55 (fun _ => 0) 0 = 0 ∧
    setSWEWaveHeight ⟨8, 1, 3⟩ 5 15 55 (fun _ => 0) 14 = 0 := by
  constructor
  · by_contra hne
    have h := ((setSWEWaveHeight_write_range ⟨8, 1, 3⟩ 5 0 55 (fun _ => 0)).1
      0 hne).1
    exact absurd h (by norm_num)
  · by_contra hne
    have h := ((setSWEWaveHeight_write_range ⟨8, 1, 3⟩ 5 15 55 (fun _ => 0)).1
      14 hne).2.1
    exact absurd h (by decide)

/-! ## C7: ShipElectricSparks::PropagateSparks termination

From `src/Game/ShipElectricSparks.cpp`. `MaxPathLength = 25`; the maximum
equivalent path length for an interaction is `min(counter + 1, MaxPathLength)`
(lines 160-163); every followed spring extends the path by the fixed
`equivalentStepLength = 1.0` (line 539), and a reached point is queued for the
next expansion only when its new path length is strictly below the budget
(lines 558-566; likewise the jump-start entries of path length 1 at lines
264-272). Since path lengths are whole multiples of the unit step they are
embedded as ℕ. The choice of springs actually followed from a visited point —
alignment ranking, RNG-gated forking and rerouting, and the electrified-state
filters — is abstracted as an oracle `nextTargets` giving the target points of
the followed springs: the termination theorem is proved for every oracle, so
it covers the concrete choices the code makes. -/

def maxPathLength : ℕ := 25

/-- Mirrors `maxEquivalentPathLengthForThisInteraction`
(ShipElectricSparks.cpp lines 160-163). -/
def maxEquivalentPathLengthForInteraction (counter : ℕ) : ℕ :=
  min (counter + 1) maxPathLength

/-- Mirrors `SparkPointToVisit` (ShipElectricSparks.cpp lines 124-145), reduced to the
fields that drive the loop; direction, size and incoming spring feed only the
oracle. -/
structure SparkPointToVisit where
  pointIndex : ℕ
  equivalentPathLength : ℕ
  deriving DecidableEq, Repr

/-- One iteration of the expansion loop (ShipElectricSparks.cpp lines
393-580): every visited point follows the springs the oracle selects, each
target gets path length one step longer, and is queued for the next expansion
only when strictly below the budget. -/
def sparkExpansionIteration (nextTargets : SparkPointToVisit → List ℕ)
    (maxLen : ℕ) (q : List SparkPointToVisit) : List SparkPointToVisit :=
  q.flatMap (fun pv =>
    (nextTargets pv).filterMap (fun tgt =>
      if pv.equivalentPathLength + 1 < maxLen then
        some ⟨tgt, pv.equivalentPathLength + 1⟩
      else none))

theorem sparkExpansionIteration_mem (nextTargets : SparkPointToVisit → List ℕ)
    (maxLen : ℕ) (q : List SparkPointToVisit) (v : SparkPointToVisit)
    (hv : v ∈ sparkExpansionIteration nextTargets maxLen q) :
    v.equivalentPathLength < maxLen ∧
      ∃ u ∈ q, v.equivalentPathLength = u.equivalentPathLength + 1 := by
  unfold sparkExpansionIteration at hv
  simp only [List.mem_flatMap, List.mem_filterMap] at hv
  obtain ⟨u, hu, tgt, htgt, hsome⟩ := hv
  by_cases hlt : u.equivalentPathLength + 1 < maxLen
  · rw [if_pos hlt] at hsome
    obtain rfl := Option.some_injective _ hsome
    exact ⟨hlt, u, hu, rfl⟩
  · rw [if_neg hlt] at hsome
    exact absurd hsome (Option.noConfusion)

theorem sparkExpansion_empty_after (nextTargets : SparkPointToVisit → List ℕ)
    (maxLen : ℕ) (n : ℕ) (q : List SparkPointToVisit)
    (hq : ∀ v ∈ q, v.equivalentPathLength < maxLen ∧
      maxLen ≤ v.equivalentPathLength + n) :
    (sparkExpansionIteration nextTargets maxLen)^[n] q = [] := by
  induction n generalizing q with
  | zero =>
      cases q with
      | nil => rfl
      | cons v tl =>
          obtain ⟨h1, h2⟩ := hq v (List.mem_cons_self v tl)
          omega
  | succ m ih =>
      rw [Function.iterate_succ_apply]
      refine ih (sparkExpansionIteration nextTargets maxLen q) ?_
      intro v hv
      obtain ⟨hlt, u, hu, heq⟩ :=
        sparkExpansionIteration_mem nextTargets maxLen q v hv
      obtain ⟨hu1, hu2⟩ := hq u hu
      exact ⟨hlt, by omega⟩

/-- C7. The expansion of `PropagateSparks` terminates for every input: the
interaction budget is `min(counter + 1, MaxPathLength)` — capped by the
global constant `MaxPathLength = 25` regardless of the counter — every hop
adds the fixed unit step, points are queued only while strictly below the
budget, and so the loop runs out of arcs after at most
`MaxPathLength − 1 = 24` expansion iterations, for every jump-start queue
(whose entries carry path length 1 and are queued only when below the budget)
and every oracle of followed springs. -/
theorem propagateSparks_expansion_terminates (counter : ℕ)
    (nextTargets : SparkPointToVisit → List ℕ) (q0 : List SparkPointToVisit)
    (hq0 : ∀ v ∈ q0, v.equivalentPathLength = 1 ∧
      v.equivalentPathLength < maxEquivalentPathLengthForInteraction counter) :
    maxEquivalentPathLengthForInteraction counter ≤ maxPathLength ∧
    (sparkExpansionIteration nextTargets
        (maxEquivalentPathLengthForInteraction counter))^[maxPathLength - 1]
      q0 = [] := by
  refine ⟨min_le_right _ _, ?_⟩
  refine sparkExpansion_empty_after nextTargets _ _ q0 ?_
  intro v hv
  obtain ⟨h1, h2⟩ := hq0 v hv
  have hcap : maxEquivalentPathLengthForInteraction counter ≤ maxPathLength :=
    min_le_right _ _
  unfold maxPathLength at hcap ⊢
  omega

/-- Witness for C7 at a concrete input: counter 2 (budget 3), the oracle that
always continues to the next point index, and a single jump-start arc of path
length 1. -/
theorem propagateSparks_expansion_terminates_witness :
    maxEquivalentPathLengthForInteraction 2 ≤ maxPathLength ∧
    (sparkExpansionIteration (fun v => [v.pointIndex + 1])
        (maxEquivalentPathLengthForInteraction 2))^[maxPathLength - 1]
      [⟨5, 1⟩] = [] := by
  refine propagateSparks_expansion_terminates 2 (fun v => [v.pointIndex + 1])
    [⟨5, 1⟩] ?_
  intro v hv
  simp only [List.mem_singleton] at hv
  subst hv
  exact ⟨rfl, by decide⟩

/-! ## C9: the Gadgets::Update sweep of expired gadgets

From `Gadgets::Update` (src/unnamed/part_003, lines 55-99): every gadget's
`Update` is invoked; when it returns `false` (expired), the sweep asserts
`mShipPoints.IsGadgetAttached(pointIndex)` — under a comment stating that
"the gadget has detached itself already" — emits an `OnGadgetRemoved`
notification, and erases the gadget from the collection. The sweep calls no
`Points::DetachGadget` (unlike every other removal path in the same file,
e.g. lines 201-205, 268-271, 335-338), and neither does
`ImpactBombGadget::Update` (part_004 lines 36-126), so the sweep leaves the
host particle marked gadget-attached. -/

structure GadgetsState where
  gadgets : List (ℕ × ImpactBombGadget)  -- (host point index, gadget)
  isGadgetAttached : ℕ → Bool            -- Points::IsGadgetAttached

structure GadgetsSweepResult where
  after : GadgetsState
  removedGadgetPoints : List ℕ  -- one OnGadgetRemoved notification each
  assertsHold : Bool            -- conjunction of the sweep's assert checks

/-- The gadget sweep of `Gadgets::Update` (part_003 lines 55-99). The
attachment map is returned unchanged because the sweep never calls
`Points::DetachGadget`. -/
def gadgetsUpdateSweep (trigger : ℚ) (fadeSteps : ℕ) (temps : ℕ → ℚ)
    (st : GadgetsState) : GadgetsSweepResult :=
  let r := st.gadgets.foldl
    (fun acc pg =>
      let u := ImpactBombGadget.update trigger fadeSteps (temps pg.1) pg.2
      if u.2 then
        (acc.1 ++ [(pg.1, u.1)], acc.2.1, acc.2.2)
      else
        (acc.1, acc.2.1 ++ [pg.1], acc.2.2 && st.isGadgetAttached pg.1))
    (([] : List (ℕ × ImpactBombGadget)), ([] : List ℕ), true)
  ⟨⟨r.1, st.isGadgetAttached⟩, r.2.1, r.2.2⟩

/-- C9 exhibit (code bug): with an expired impact bomb attached to point 0,
the sweep erases the gadget and emits the removal notification, but the host
particle is still marked gadget-attached after the sweep — the sweep never
detaches it, contradicting the spec ("the collection detaches the gadget from
its particle and erases it") and the sweep's own comment that the gadget "has
detached itself already", which its assert
`IsGadgetAttached(pointIndex) == true` simultaneously denies. -/
theorem gadgetsUpdateSweep_expired_leaves_attachment :
    letI st : GadgetsState := ⟨[(0, ⟨.Expired, 3⟩)], fun _ => true⟩
    letI r := gadgetsUpdateSweep 100 3 (fun _ => 0) st
    r.after.gadgets = [] ∧
    r.removedGadgetPoints = [0] ∧
    r.assertsHold = true ∧
    r.after.isGadgetAttached 0 = true := by
  exact ⟨rfl, rfl, rfl, rfl⟩

/-! ## C2: light diffusion

The implementation `Algorithms::DiffuseLight` is absent from the source tree;
only its test fixtures are present (`AlgorithmsTests.DiffuseLight_1Lamp` …
`DiffuseLight_10Lamps`, src/unnamed/part_002 lines 233-520). The fixtures
pin the semantics: a lamp contributes `max(0, C·(S − D))` to a point when the
point's plane id does not exceed the lamp's plane id (part_002: point 4 of
plane 3 has the plane-2 lamp "Excluded by planeID", while point 1 of plane 1
receives light from lamps of planes 2 and 3), and the total is the maximum
over contributing lamps clamped to at most 1 (point 2 of the 3-lamp fixture
expects 0.7527864 — the larger of 0.1171573 and 0.7527864, not their sum —
and point 1 expects exactly 1.0, the clamp of 1.2, marked "Truncated"). -/

structure DiffuseLamp where
  positionX : ℝ
  positionY : ℝ
  planeId : ℕ
  distanceCoeff : ℝ
  spreadMaxDistance : ℝ

noncomputable def euclideanDistance (x1 y1 x2 y2 : ℝ) : ℝ :=
  Real.sqrt ((x1 - x2) ^ 2 + (y1 - y2) ^ 2)

/-- One lamp's light contribution at distance `d`: `C·(S − D)` clamped
to `[0, ∞)`. -/
noncomputable def lampLightAtDistance (coeff spread d : ℝ) : ℝ :=
  max 0 (coeff * (spread - d))

/-- Modelled from the spec: `Algorithms::DiffuseLight` (implementation missing
from the source tree), reconstructed from its test fixtures in part_002: the
total light at a point is the maximum, over the lamps whose plane id is at
least the point's plane id, of `max(0, C·(S − D))`, clamped to at most 1. -/
noncomputable def diffuseLightAtPoint (px py : ℝ) (pointPlane : ℕ)
    (lamps : List DiffuseLamp) : ℝ :=
  min 1 (lamps.foldl
    (fun acc l =>
      if pointPlane ≤ l.planeId then
        max acc (lampLightAtDistance l.distanceCoeff l.spreadMaxDistance
          (euclideanDistance px py l.positionX l.positionY))
      else acc)
    0)

/-- The total light as claim C2 words it: the sum, over the lamps sharing
exactly the point's plane id, of the clamped contribution `C·(S − D)`. -/
noncomputable def diffuseLightAtPointClaimC2 (px py : ℝ) (pointPlane : ℕ)
    (lamps : List DiffuseLamp) : ℝ :=
  (lamps.filter (fun l => l.planeId == pointPlane)).foldl
    (fun acc l =>
      acc + lampLightAtDistance l.distanceCoeff l.spreadMaxDistance
        (euclideanDistance px py l.positionX l.positionY))
    0

theorem euclideanDistance_1Lamp_fixture :
    euclideanDistance 1 2 4 2 = 3 := by
  unfold euclideanDistance
  rw [show ((1:ℝ) - 4) ^ 2 + ((2:ℝ) - 2) ^ 2 = 3 ^ 2 by norm_num]
  exact Real.sqrt_sq (by norm_num)

/-- C2 counterexample. On the very 1-lamp fixture the claim cites (lamp at
(4,2), plane 3, coefficient 0.1, spread 4.0; point at (1,2), plane 1), the
claim's plane-sharing sum yields 0, while the test in the source expects
`0.1` (`EXPECT_FLOAT_EQ(0.1f, outLightBuffer[0])`), the value the
fixture-faithful semantics produces: the cross-plane lamp does contribute. -/
theorem diffuseLight_claimC2_counterexample :
    diffuseLightAtPointClaimC2 1 2 1 [⟨4, 2, 3, 1/10, 4⟩] = 0 ∧
    diffuseLightAtPoint 1 2 1 [⟨4, 2, 3, 1/10, 4⟩] = 1/10 ∧
    (0 : ℝ) ≠ 1/10 := by
  refine ⟨?_, ?_, by norm_num⟩
  · unfold diffuseLightAtPointClaimC2
    rfl
  · unfold diffuseLightAtPoint
    simp only [List.foldl_cons, List.foldl_nil]
    rw [if_pos (by norm_num : (1:ℕ) ≤ 3)]
    unfold lampLightAtDistance
    rw [euclideanDistance_1Lamp_fixture]
    rw [show (1:ℝ)/10 * (4 - 3) = 1/10 by norm_num,
      max_eq_right (by norm_num : (0:ℝ) ≤ 1/10),
      max_eq_right (by norm_num : (0:ℝ) ≤ 1/10),
      min_eq_right (by norm_num : (1:ℝ)/10 ≤ 1)]

theorem lampLightAtDistance_antitone (coeff spread d1 d2 : ℝ)
    (hc : 0 ≤ coeff) (hd : d1 ≤ d2) :
    lampLightAtDistance coeff spread d2 ≤ lampLightAtDistance coeff spread d1 := by
  unfold lampLightAtDistance
  refine max_le (le_max_left _ _) (le_max_of_le_right ?_)
  have : coeff * (spread - d2) ≤ coeff * (spread - d1) :=
    mul_le_mul_of_nonneg_left (by linarith) hc
  exact this

theorem lampLightAtDistance_zero_beyond (coeff spread d : ℝ)
    (hc : 0 ≤ coeff) (hd : spread ≤ d) :
    lampLightAtDistance coeff spread d = 0 := by
  unfold lampLightAtDistance
  refine max_eq_left ?_
  have hsd : spread - d ≤ 0 := by linarith
  exact mul_nonpos_of_nonneg_of_nonpos hc hsd

/-- C2 amended. Each lamp's contribution at distance D is `C·(S − D)` clamped
to `[0, ∞)` — monotonically non-increasing with distance and zero at or
beyond S — a lamp contributes only when its plane id is at least the point's
plane id (lamps on a lower plane contribute nothing), and the total light is
the maximum over contributing lamps clamped to at most 1, matching the
fixtures' literal expectations: the single-lamp fixture point (1,2) gets
exactly 0.1, and the 3-lamp fixture point (1,2) gets exactly 1.0 (the clamp
of the 1.2 contribution from the plane-2 lamp at distance 0). -/
theorem diffuseLight_fixture_semantics :
    (∀ coeff spread d1 d2 : ℝ, 0 ≤ coeff → d1 ≤ d2 →
      lampLightAtDistance coeff spread d2 ≤ lampLightAtDistance coeff spread d1) ∧
    (∀ coeff spread d : ℝ, 0 ≤ coeff → spread ≤ d →
      lampLightAtDistance coeff spread d = 0) ∧
    (∀ (px py : ℝ) (pointPlane : ℕ) (l : DiffuseLamp),
      l.planeId < pointPlane → diffuseLightAtPoint px py pointPlane [l] = 0) ∧
    diffuseLightAtPoint 1 2 1 [⟨4, 2, 3, 1/10, 4⟩] = 1/10 ∧
    diffuseLightAtPoint 1 2 1
      [⟨1, 2, 2, 1/5, 6⟩, ⟨100, 100, 10, 10, 1⟩, ⟨4, 2, 3, 1/10, 4⟩] = 1 := by
  refine ⟨lampLightAtDistance_antitone, lampLightAtDistance_zero_beyond,
    ?_, (diffuseLight_claimC2_counterexample).2.1, ?_⟩
  · intro px py pointPlane l hplane
    unfold diffuseLightAtPoint
    simp only [List.foldl_cons, List.foldl_nil]
    rw [if_neg (by omega)]
    exact min_eq_right (by norm_num)
  · unfold diffuseLightAtPoint
    simp only [List.foldl_cons, List.foldl_nil]
    rw [if_pos (by norm_num : (1:ℕ) ≤ 2), if_pos (by norm_num : (1:ℕ) ≤ 10),
      if_pos (by norm_num : (1:ℕ) ≤ 3)]
    have hd1 : euclideanDistance 1 2 1 2 = 0 := by
      unfold euclideanDistance
      rw [show ((1:ℝ) - 1) ^ 2 + ((2:ℝ) - 2) ^ 2 = 0 by norm_num]
      exact Real.sqrt_zero
    have hd2 : (1 : ℝ) ≤ euclideanDistance 1 2 100 100 := by
      unfold euclideanDistance
      rw [show ((1:ℝ) - 100) ^ 2 + ((2:ℝ) - 100) ^ 2 = 19405 by norm_num]
      have h1 : (1 : ℝ) = Real.sqrt 1 := Real.sqrt_one.symm
      rw [h1]
      exact Real.sqrt_le_sqrt (by norm_num)
    have hv1 : lampLightAtDistance (1/5) 6 (euclideanDistance 1 2 1 2) =
        6/5 := by
      unfold lampLightAtDistance
      rw [hd1]
      rw [show (1:ℝ)/5 * (6 - 0) = 6/5 by norm_num]
      exact max_eq_right (by norm_num)
    have hv2 : lampLightAtDistance 10 1 (euclideanDistance 1 2 100 100) =
        0 := lampLightAtDistance_zero_beyond 10 1 _ (by norm_num) hd2
    have hv3 : lampLightAtDistance (1/10) 4 (euclideanDistance 1 2 4 2) =
        1/10 := by
      unfold lampLightAtDistance
      rw [euclideanDistance_1Lamp_fixture]
      rw [show (1:ℝ)/10 * (4 - 3) = 1/10 by norm_num]
      exact max_eq_right (by norm_num)
    rw [hv1, hv2, hv3]
    rw [max_eq_right (by norm_num : (0:ℝ) ≤ 6/5),
      max_eq_left (by norm_num : (0:ℝ) ≤ 6/5),
      max_eq_left (by norm_num : (1:ℝ)/10 ≤ 6/5)]
    exact min_eq_left (by norm_num)

/-- Witness for C2's amended theorem at concrete inputs: monotonicity at
distances 2 ≤ 3 with coefficient 0.1, and the cutoff at distance 5 beyond
spread 4. -/
theorem diffuseLight_fixture_semantics_witness :
    lampLightAtDistance (1/10) 4 3 ≤ lampLightAtDistance (1/10) 4 2 ∧
    lampLightAtDistance (1/10) 4 5 = 0 ∧
    diffuseLightAtPoint 0 0 4 [⟨0, 0, 2, 1/10, 4⟩] = 0 := by
  refine ⟨(diffuseLight_fixture_semantics).1 (1/10) 4 2 3 (by norm_num)
      (by norm_num),
    (diffuseLight_fixture_semantics).2.1 (1/10) 4 5 (by norm_num) (by norm_num),
    (diffuseLight_fixture_semantics).2.2.1 0 0 4 ⟨0, 0, 2, 1/10, 4⟩
      (by norm_num)⟩

/-! ## C5: abnormal wave spawning and rescheduling

From `OceanSurface::Update` (src/unnamed/part_004, lines 302-376: when no
tsunami / rogue-wave state machine is active and `now` has passed the
scheduled timestamp, the wave is triggered, the last-occurrence timestamp is
set to `now`, and the next occurrence is rescheduled), together with
`OceanSurface::TriggerTsunami` / `TriggerRogueWave` (lines 497-566) and
`CalculateNextAbnormalWaveTimestamp` (lines 849-861:
`lastTimestamp + 120 s + GenerateExponentialReal(1/rateSeconds)`).

Random draws of the singleton `GameRandomEngine` are threaded as explicit
inputs (`…Draw` parameters); `ToSampleIndex` lives in the header missing from
the source tree and is kept as a function parameter, as is the rest offset
`SWEHeightFieldOffset`. -/

/-- Mirrors `SWEAbnormalWaveStateMachine` state (part_004 lines 1336-1351). -/
structure SWEAbnormalWaveStateMachine where
  centerIndex : ℕ
  lowHeight : ℚ
  highHeight : ℚ
  fallDelay : ℚ
  currentProgress : ℚ
  currentPhaseStartSimulationTime : ℚ
  currentPhaseDelay : ℚ
  currentWavePhase : WavePhaseType
  deriving DecidableEq, Repr

/-- The `SWEAbnormalWaveStateMachine` constructor (part_004 lines 1336-1351). -/
def SWEAbnormalWaveStateMachine.construct (centerIndex : ℕ)
    (lowHeight highHeight riseDelay fallDelay currentSimulationTime : ℚ) :
    SWEAbnormalWaveStateMachine :=
  ⟨centerIndex, lowHeight, highHeight, fallDelay, 0, currentSimulationTime,
    riseDelay, .Rise⟩

/-- Mirrors `OceanSurface::TriggerTsunami` (part_004 lines 499-531): the locus is a
uniformly drawn world X (`tsunamiWorldXDraw`), mapped through `ToSampleIndex`
and offset by the outer layer; the height is the drawn tuned-range value plus
the rest offset; rise delay 7 s, fall delay 5 s. -/
def triggerTsunami (g : SWEGridParams) (toSampleIndex : ℚ → ℕ)
    (heightField : ℕ → ℚ) (offset : ℚ)
    (tsunamiWorldXDraw tsunamiHeightDraw currentSimulationTime : ℚ) :
    SWEAbnormalWaveStateMachine :=
  let centerIndex := g.sweOuterLayerSamples + toSampleIndex tsunamiWorldXDraw
  SWEAbnormalWaveStateMachine.construct centerIndex (heightField centerIndex)
    (tsunamiHeightDraw + offset) 7 5 currentSimulationTime

/-- Mirrors `OceanSurface::TriggerRogueWave` (part_004 lines 533-566): the locus is
NOT drawn — it is the left boundary-conditions index when the wind's
base-and-storm speed magnitude is ≥ 0 and the right edge
`SWEOuterLayerSamples + SamplesCount` otherwise; only the height and the
rise/fall delay are drawn. -/
def triggerRogueWave (g : SWEGridParams) (heightField : ℕ → ℚ) (offset : ℚ)
    (windBaseAndStormSpeedMagnitude : ℚ)
    (rogueWaveHeightDraw rogueWaveDelayDraw currentSimulationTime : ℚ) :
    SWEAbnormalWaveStateMachine :=
  let centerIndex :=
    if 0 ≤ windBaseAndStormSpeedMagnitude then g.sweBoundaryConditionsSamples
    else g.sweOuterLayerSamples + g.samplesCount
  SWEAbnormalWaveStateMachine.construct centerIndex (heightField centerIndex)
    (rogueWaveHeightDraw + offset) rogueWaveDelayDraw rogueWaveDelayDraw
    currentSimulationTime

/-- Mirrors `OceanSurface::CalculateNextAbnormalWaveTimestamp` (part_004 lines
849-861): last timestamp plus a 120-second grace period plus the
exponentially distributed draw `GenerateExponentialReal(1/rateSeconds)`
(threaded as `expDraw`). -/
def calculateNextAbnormalWaveTimestamp (lastTimestamp expDraw : ℚ) : ℚ :=
  lastTimestamp + (120 + expDraw)

/-- The per-wave scheduling state of `OceanSurface`: the optional active state
machine, the scheduled next-occurrence timestamp and the last-occurrence
timestamp. -/
structure AbnormalWaveScheduler where
  machine : Option SWEAbnormalWaveStateMachine
  nextTimestamp : ℚ
  lastTimestamp : ℚ
  deriving DecidableEq, Repr

/-- The tsunami spawn check of `OceanSurface::Update` (part_004 lines
319-340): only when no machine is active and `now` is strictly past the
scheduled timestamp is a tsunami triggered, the last-occurrence time set to
`now` and the next occurrence rescheduled from `now`. (The machine-active
branch advances the active machine and is modelled separately.) -/
def tsunamiSpawnCheck (g : SWEGridParams) (toSampleIndex : ℚ → ℕ)
    (heightField : ℕ → ℚ) (offset : ℚ) (st : AbnormalWaveScheduler)
    (now currentSimulationTime xDraw hDraw expDraw : ℚ) :
    AbnormalWaveScheduler :=
  match st.machine with
  | some _ => st
  | none =>
      if st.nextTimestamp < now then
        { machine := some (triggerTsunami g toSampleIndex heightField offset
            xDraw hDraw currentSimulationTime)
          nextTimestamp := calculateNextAbnormalWaveTimestamp now expDraw
          lastTimestamp := now }
      else st

/-- The rogue-wave spawn check of `OceanSurface::Update` (part_004 lines
343-376), analogous to the tsunami one. -/
def rogueWaveSpawnCheck (g : SWEGridParams) (heightField : ℕ → ℚ)
    (offset : ℚ) (st : AbnormalWaveScheduler)
    (now currentSimulationTime wind hDraw dDraw expDraw : ℚ) :
    AbnormalWaveScheduler :=
  match st.machine with
  | some _ => st
  | none =>
      if st.nextTimestamp < now then
        { machine := some (triggerRogueWave g heightField offset wind hDraw
            dDraw currentSimulationTime)
          nextTimestamp := calculateNextAbnormalWaveTimestamp now expDraw
          lastTimestamp := now }
      else st

/-- C5 counterexample. The rogue-wave locus is not a random world-X locus:
with the concrete grid (8 interior samples, 1 wave-generation sample,
3 boundary samples per end), wind +5 and two entirely different random draw
pairs, `TriggerRogueWave` produces the same center index 3 — the left
boundary-conditions index, which lies inside the outer margin
(`3 < SWEOuterLayerSamples = 4`) and is therefore not
`SWEOuterLayerSamples + ToSampleIndex(x)` for any world X, whereas a tsunami
center always is. -/
theorem triggerRogueWave_locus_counterexample :
    (triggerRogueWave ⟨8, 1, 3⟩ (fun _ => 100) 2 5 (1/2) (7/10) 0).centerIndex =
      (triggerRogueWave ⟨8, 1, 3⟩ (fun _ => 100) 2 5 (9/10) (3/2) 0).centerIndex ∧
    (triggerRogueWave ⟨8, 1, 3⟩ (fun _ => 100) 2 5 (1/2) (7/10) 0).centerIndex =
      3 ∧
    (3 : ℕ) < SWEGridParams.sweOuterLayerSamples ⟨8, 1, 3⟩ ∧
    (∀ sampleIndex : ℕ,
      SWEGridParams.sweOuterLayerSamples ⟨8, 1, 3⟩ + sampleIndex ≠ 3) := by
  refine ⟨rfl, rfl, by decide, ?_⟩
  intro sampleIndex
  show 4 + sampleIndex ≠ 3
  omega

/-- C5 amended. Whenever no tsunami (resp. rogue-wave) machine is active and
the scheduled timestamp is strictly past, one is spawned — the tsunami at
`SWEOuterLayerSamples + ToSampleIndex(xDraw)` for the drawn world X, the
rogue wave at the wind-determined edge locus (left boundary index when the
wind magnitude is ≥ 0, right edge otherwise), both with the drawn height plus
the rest offset — the last-occurrence time becomes `now`, and the next
occurrence is rescheduled to `now + 120 s + expDraw` with `expDraw` the
exponentially distributed draw; when a machine is active, or the timestamp
has not passed, the scheduling state is unchanged. -/
theorem abnormalWaveSpawnScheduling (g : SWEGridParams)
    (toSampleIndex : ℚ → ℕ) (heightField : ℕ → ℚ) (offset : ℚ)
    (st : AbnormalWaveScheduler)
    (now currentSimulationTime wind xDraw hDraw dDraw expDraw : ℚ) :
    (st.machine = none → st.nextTimestamp < now →
      tsunamiSpawnCheck g toSampleIndex heightField offset st now
          currentSimulationTime xDraw hDraw expDraw =
        { machine := some (triggerTsunami g toSampleIndex heightField offset
            xDraw hDraw currentSimulationTime)
          nextTimestamp := now + (120 + expDraw)
          lastTimestamp := now } ∧
      (triggerTsunami g toSampleIndex heightField offset xDraw hDraw
          currentSimulationTime).centerIndex =
        g.sweOuterLayerSamples + toSampleIndex xDraw ∧
      (triggerTsunami g toSampleIndex heightField offset xDraw hDraw
          currentSimulationTime).highHeight = hDraw + offset) ∧
    (st.machine = none → st.nextTimestamp < now →
      rogueWaveSpawnCheck g heightField offset st now currentSimulationTime
          wind hDraw dDraw expDraw =
        { machine := some (triggerRogueWave g heightField offset wind hDraw
            dDraw currentSimulationTime)
          nextTimestamp := now + (120 + expDraw)
          lastTimestamp := now } ∧
      (triggerRogueWave g heightField offset wind hDraw dDraw
          currentSimulationTime).centerIndex =
        (if 0 ≤ wind then g.sweBoundaryConditionsSamples
          else g.sweOuterLayerSamples + g.samplesCount) ∧
      (triggerRogueWave g heightField offset wind hDraw dDraw
          currentSimulationTime).highHeight = hDraw + offset) ∧
    (∀ m, st.machine = some m →
      tsunamiSpawnCheck g toSampleIndex heightField offset st now
          currentSimulationTime xDraw hDraw expDraw = st ∧
      rogueWaveSpawnCheck g heightField offset st now currentSimulationTime
          wind hDraw dDraw expDraw = st) ∧
    (st.machine = none → ¬ (st.nextTimestamp < now) →
      tsunamiSpawnCheck g toSampleIndex heightField offset st now
          currentSimulationTime xDraw hDraw expDraw = st ∧
      rogueWaveSpawnCheck g heightField offset st now currentSimulationTime
          wind hDraw dDraw expDraw = st) := by
  refine ⟨?_, ?_, ?_, ?_⟩
  · intro hm hdue
    refine ⟨?_, rfl, rfl⟩
    unfold tsunamiSpawnCheck
    rw [hm]
    simp only [if_pos hdue]
    rfl
  · intro hm hdue
    refine ⟨?_, rfl, rfl⟩
    unfold rogueWaveSpawnCheck
    rw [hm]
    simp only [if_pos hdue]
    rfl
  · intro m hm
    constructor
    · unfold tsunamiSpawnCheck
      rw [hm]
    · unfold rogueWaveSpawnCheck
      rw [hm]
  · intro hm hnotdue
    constructor
    · unfold tsunamiSpawnCheck
      rw [hm]
      simp only [if_neg hnotdue]
    · unfold rogueWaveSpawnCheck
      rw [hm]
      simp only [if_neg hnotdue]

/-- Witness for C5's amended theorem at a concrete input: empty scheduler due
at time 10, checked at time 11. -/
theorem abnormalWaveSpawnScheduling_witness :
    tsunamiSpawnCheck ⟨8, 1, 3⟩ (fun _ => 2) (fun _ => 100) 100
        ⟨none, 10, 0⟩ 11 11 6 5 40 =
      { machine := some (triggerTsunami ⟨8, 1, 3⟩ (fun _ => 2) (fun _ => 100)
          100 6 5 11)
        nextTimestamp := 11 + (120 + 40)
        lastTimestamp := 11 } ∧
    (triggerTsunami ⟨8, 1, 3⟩ (fun _ => 2) (fun _ => 100) 100 6 5
        11).centerIndex = 4 + 2 ∧
    (triggerTsunami ⟨8, 1, 3⟩ (fun _ => 2) (fun _ => 100) 100 6 5
        11).highHeight = 5 + 100 := by
  have h := (abnormalWaveSpawnScheduling ⟨8, 1, 3⟩ (fun _ => 2) (fun _ => 100)
    100 ⟨none, 10, 0⟩ 11 11 3 6 5 (1/2) 40).1 rfl (by norm_num)
  exact h

/-! ## C6: Gadgets::TogglePhysicsProbeAt

From `Gadgets::TogglePhysicsProbeAt` (src/unnamed/part_003, lines 177-324).
Ship particles are modelled by their per-index data (positions, number of
connected springs, gadget-attachment flag); only squared distances are ever
compared, exactly as in the C++ (`squareLength` versus the squared search
radius), so everything stays in ℚ. -/

structure ProbePoints where
  count : ℕ
  positionX : ℕ → ℚ
  positionY : ℕ → ℚ
  connectedSpringsCount : ℕ → ℕ
  isGadgetAttached : ℕ → Bool

def squareDistance (x1 y1 x2 y2 : ℚ) : ℚ :=
  (x1 - x2) * (x1 - x2) + (y1 - y2) * (y1 - y2)

/-- Mirrors `(GetPosition(i) − targetPos).squareLength()`. -/
def probeDistSq (pts : ProbePoints) (tx ty : ℚ) (i : ℕ) : ℚ :=
  squareDistance (pts.positionX i) (pts.positionY i) tx ty

/-- The candidate filter of the search loop (part_003 lines 231-234): at
least one connected spring and no gadget attached. -/
def probeEligible (pts : ProbePoints) (i : ℕ) : Prop :=
  pts.connectedSpringsCount i ≠ 0 ∧ pts.isGadgetAttached i = false

instance (pts : ProbePoints) (i : ℕ) : Decidable (probeEligible pts i) :=
  inferInstanceAs
    (Decidable (pts.connectedSpringsCount i ≠ 0 ∧ pts.isGadgetAttached i = false))

/-- One iteration of the nearest-candidate search loop (part_003 lines
229-249): keep the nearest eligible particle strictly within the squared
search radius; `none` plays the role of
`NoneElementIndex` paired with the `float::max` initial distance. -/
def probeCandidateStep (pts : ProbePoints) (tx ty rsq : ℚ)
    (best : Option (ℕ × ℚ)) (i : ℕ) : Option (ℕ × ℚ) :=
  if probeEligible pts i then
    if probeDistSq pts tx ty i < rsq then
      match best with
      | none => some (i, probeDistSq pts tx ty i)
      | some (b, bd) =>
          if probeDistSq pts tx ty i < bd then some (i, probeDistSq pts tx ty i)
          else some (b, bd)
    else best
  else best

/-- The nearest-candidate search of `TogglePhysicsProbeAt` (part_003 lines
272-249 loop over `RawShipPoints`). -/
def findNearestCandidate (pts : ProbePoints) (tx ty rsq : ℚ) :
    Option (ℕ × ℚ) :=
  (List.range pts.count).foldl (probeCandidateStep pts tx ty rsq) none

theorem probeCandidate_foldl_inv (pts : ProbePoints) (tx ty rsq : ℚ)
    (l : List ℕ) (seen : List ℕ) (acc : Option (ℕ × ℚ))
    (hnone : acc = none → ∀ j ∈ seen, probeEligible pts j →
      ¬ probeDistSq pts tx ty j < rsq)
    (hsome : ∀ i d, acc = some (i, d) → i ∈ seen ∧ probeEligible pts i ∧
      d = probeDistSq pts tx ty i ∧ d < rsq ∧
      ∀ j ∈ seen, probeEligible pts j → probeDistSq pts tx ty j < rsq →
        d ≤ probeDistSq pts tx ty j) :
    (l.foldl (probeCandidateStep pts tx ty rsq) acc = none →
      ∀ j ∈ seen ++ l, probeEligible pts j →
        ¬ probeDistSq pts tx ty j < rsq) ∧
    (∀ i d, l.foldl (probeCandidateStep pts tx ty rsq) acc = some (i, d) →
      i ∈ seen ++ l ∧ probeEligible pts i ∧ d = probeDistSq pts tx ty i ∧
      d < rsq ∧
      ∀ j ∈ seen ++ l, probeEligible pts j → probeDistSq pts tx ty j < rsq →
        d ≤ probeDistSq pts tx ty j) := by
  induction l generalizing seen acc with
  | nil =>
      simp only [List.foldl_nil, List.append_nil]
      exact ⟨hnone, hsome⟩
  | cons i tl ih =>
      simp only [List.foldl_cons]
      have hmem : ∀ j, j ∈ seen ++ [i] ↔ j ∈ seen ∨ j = i := by
        intro j
        simp [List.mem_append]
      have hstep :
          (probeCandidateStep pts tx ty rsq acc i = none →
            ∀ j ∈ seen ++ [i], probeEligible pts j →
              ¬ probeDistSq pts tx ty j < rsq) ∧
          (∀ i0 d0, probeCandidateStep pts tx ty rsq acc i = some (i0, d0) →
            i0 ∈ seen ++ [i] ∧ probeEligible pts i0 ∧
            d0 = probeDistSq pts tx ty i0 ∧ d0 < rsq ∧
            ∀ j ∈ seen ++ [i], probeEligible pts j →
              probeDistSq pts tx ty j < rsq →
              d0 ≤ probeDistSq pts tx ty j) := by
        unfold probeCandidateStep
        by_cases helig : probeEligible pts i
        · rw [if_pos helig]
          by_cases hrad : probeDistSq pts tx ty i < rsq
          · rw [if_pos hrad]
            cases hacc : acc with
            | none =>
                dsimp only
                refine ⟨fun hcon => absurd hcon (by simp), ?_⟩
                intro i0 d0 heq
                rw [Option.some.injEq, Prod.mk.injEq] at heq
                obtain ⟨heqi, heqd⟩ := heq
                subst heqi
                subst heqd
                refine ⟨(hmem i).mpr (Or.inr rfl), helig, rfl, hrad, ?_⟩
                intro j hj hjel hjrad
                rcases (hmem j).mp hj with hj1 | rfl
                · exact absurd hjrad (hnone hacc j hj1 hjel)
                · exact le_refl _
            | some p =>
                obtain ⟨b, bd⟩ := p
                dsimp only
                obtain ⟨hbmem, hbel, hbd, hbrad, hbmin⟩ :=
                  hsome b bd hacc
                by_cases hlt : probeDistSq pts tx ty i < bd
                · rw [if_pos hlt]
                  refine ⟨fun hcon => absurd hcon (by simp), ?_⟩
                  intro i0 d0 heq
                  rw [Option.some.injEq, Prod.mk.injEq] at heq
                  obtain ⟨heqi, heqd⟩ := heq
                  subst heqi
                  subst heqd
                  refine ⟨(hmem i).mpr (Or.inr rfl), helig, rfl, hrad, ?_⟩
                  intro j hj hjel hjrad
                  rcases (hmem j).mp hj with hj1 | rfl
                  · have := hbmin j hj1 hjel hjrad
                    rw [hbd] at hlt
                    linarith
                  · exact le_refl _
                · rw [if_neg hlt]
                  refine ⟨fun hcon => absurd hcon (by simp), ?_⟩
                  intro i0 d0 heq
                  rw [Option.some.injEq, Prod.mk.injEq] at heq
                  obtain ⟨heqi, heqd⟩ := heq
                  subst heqi
                  subst heqd
                  refine ⟨(hmem b).mpr (Or.inl hbmem), hbel, hbd, hbrad, ?_⟩
                  intro j hj hjel hjrad
                  rcases (hmem j).mp hj with hj1 | rfl
                  · exact hbmin j hj1 hjel hjrad
                  · rw [hbd] at hlt ⊢
                    linarith [not_lt.mp hlt]
          · rw [if_neg hrad]
            refine ⟨?_, ?_⟩
            · intro hacc j hj hjel
              rcases (hmem j).mp hj with hj1 | rfl
              · exact hnone hacc j hj1 hjel
              · exact hrad
            · intro i0 d0 heq
              obtain ⟨hbmem, hbel, hbd, hbrad, hbmin⟩ := hsome i0 d0 heq
              refine ⟨(hmem i0).mpr (Or.inl hbmem), hbel, hbd, hbrad, ?_⟩
              intro j hj hjel hjrad
              rcases (hmem j).mp hj with hj1 | rfl
              · exact hbmin j hj1 hjel hjrad
              · exact absurd hjrad hrad
        · rw [if_neg helig]
          refine ⟨?_, ?_⟩
          · intro hacc j hj hjel
            rcases (hmem j).mp hj with hj1 | rfl
            · exact hnone hacc j hj1 hjel
            · exact absurd hjel helig
          · intro i0 d0 heq
            obtain ⟨hbmem, hbel, hbd, hbrad, hbmin⟩ := hsome i0 d0 heq
            refine ⟨(hmem i0).mpr (Or.inl hbmem), hbel, hbd, hbrad, ?_⟩
            intro j hj hjel hjrad
            rcases (hmem j).mp hj with hj1 | rfl
            · exact hbmin j hj1 hjel hjrad
            · exact absurd hjel helig
      have hres := ih (seen ++ [i]) (probeCandidateStep pts tx ty rsq acc i)
        hstep.1 hstep.2
      constructor
      · intro hfold j hj hjel
        refine hres.1 hfold j ?_ hjel
        simp only [List.append_assoc, List.singleton_append] at hj ⊢
        exact hj
      · intro i0 d0 hfold
        obtain ⟨hm, h2, h3, h4, h5⟩ := hres.2 i0 d0 hfold
        simp only [List.append_assoc, List.singleton_append] at hm h5
        refine ⟨hm, h2, h3, h4, ?_⟩
        intro j hj hjel hjrad
        exact h5 j hj hjel hjrad

/-- Full specification of the nearest-candidate search: `none` exactly when
no eligible particle lies strictly within the squared search radius, and a
`some (i, d)` result is an eligible in-radius particle at minimal squared
distance `d`. -/
theorem findNearestCandidate_spec (pts : ProbePoints) (tx ty rsq : ℚ) :
    (findNearestCandidate pts tx ty rsq = none →
      ∀ j < pts.count, probeEligible pts j →
        ¬ probeDistSq pts tx ty j < rsq) ∧
    (∀ i d, findNearestCandidate pts tx ty rsq = some (i, d) →
      i < pts.count ∧ probeEligible pts i ∧ d = probeDistSq pts tx ty i ∧
      d < rsq ∧
      ∀ j < pts.count, probeEligible pts j → probeDistSq pts tx ty j < rsq →
        d ≤ probeDistSq pts tx ty j) := by
  have h := probeCandidate_foldl_inv pts tx ty rsq (List.range pts.count) []
    none (fun _ j hj => absurd hj (List.not_mem_nil j))
    (fun i d hcon => absurd hcon (by simp))
  simp only [List.nil_append, List.mem_range] at h
  exact ⟨fun hn j hj => h.1 hn j hj, fun i d hs => h.2 i d hs⟩

/-- Mirrors `Points::AttachGadget` as seen through the attachment flag. -/
def ProbePoints.attachGadget (pts : ProbePoints) (i : ℕ) : ProbePoints :=
  { pts with isGadgetAttached := fun j => if j = i then true
      else pts.isGadgetAttached j }

/-- Mirrors `Points::DetachGadget` as seen through the attachment flag. -/
def ProbePoints.detachGadget (pts : ProbePoints) (i : ℕ) : ProbePoints :=
  { pts with isGadgetAttached := fun j => if j = i then false
      else pts.isGadgetAttached j }

/-- The per-ship state `TogglePhysicsProbeAt` manipulates:
`mCurrentPhysicsProbeGadget` reduced to its host point. -/
structure PhysicsProbeShip where
  points : ProbePoints
  probe : Option ℕ

/-- The fall-through part of `TogglePhysicsProbeAt` (part_003 lines 271-324):
search for the nearest eligible candidate; when found, move the existing
probe to it (a `std::nullopt` outcome) or place a new one (a `true`
outcome); otherwise do nothing (`std::nullopt`). -/
def probeSearchAndPlace (st : PhysicsProbeShip) (tx ty rsq : ℚ) :
    Option Bool × PhysicsProbeShip :=
  match findNearestCandidate st.points tx ty rsq with
  | some c =>
      match st.probe with
      | some p =>
          (none, ⟨((st.points.detachGadget p).attachGadget c.1), some c.1⟩)
      | none =>
          (some true, ⟨st.points.attachGadget c.1, some c.1⟩)
  | none => (none, st)

/-- Mirrors `Gadgets::TogglePhysicsProbeAt` (part_003 lines 177-324). -/
def togglePhysicsProbeAt (st : PhysicsProbeShip) (tx ty rsq : ℚ) :
    Option Bool × PhysicsProbeShip :=
  match st.probe with
  | some p =>
      if probeDistSq st.points tx ty p < rsq then
        (some false, ⟨st.points.detachGadget p, none⟩)
      else
        probeSearchAndPlace st tx ty rsq
  | none => probeSearchAndPlace st tx ty rsq

/-- C6. `TogglePhysicsProbeAt` is tri-state: `some false` exactly when an
existing probe lying strictly within the (squared) search radius is removed
(no probe remains); `some true` exactly when no probe existed and one is
newly placed — on the nearest particle within the radius having at least one
connected spring and no gadget attached; `none` exactly when either an
existing (out-of-radius) probe is merely moved to such a particle or no
eligible particle is found — and in the latter no-candidate case the ship
state is unchanged. -/
theorem togglePhysicsProbeAt_tristate (st : PhysicsProbeShip)
    (tx ty rsq : ℚ) :
    ((togglePhysicsProbeAt st tx ty rsq).1 = some false ↔
      ∃ p, st.probe = some p ∧ probeDistSq st.points tx ty p < rsq) ∧
    (∀ p, st.probe = some p → probeDistSq st.points tx ty p < rsq →
      (togglePhysicsProbeAt st tx ty rsq).2.probe = none) ∧
    ((togglePhysicsProbeAt st tx ty rsq).1 = some true ↔
      st.probe = none ∧ findNearestCandidate st.points tx ty rsq ≠ none) ∧
    (∀ i d, st.probe = none →
      findNearestCandidate st.points tx ty rsq = some (i, d) →
      (togglePhysicsProbeAt st tx ty rsq).2.probe = some i ∧
      i < st.points.count ∧ probeEligible st.points i ∧
      probeDistSq st.points tx ty i < rsq ∧
      ∀ j < st.points.count, probeEligible st.points j →
        probeDistSq st.points tx ty j < rsq →
        probeDistSq st.points tx ty i ≤ probeDistSq st.points tx ty j) ∧
    ((togglePhysicsProbeAt st tx ty rsq).1 = none ↔
      (¬ ∃ p, st.probe = some p ∧ probeDistSq st.points tx ty p < rsq) ∧
      (st.probe = none → findNearestCandidate st.points tx ty rsq = none)) ∧
    (st.probe = none → findNearestCandidate st.points tx ty rsq = none →
      (togglePhysicsProbeAt st tx ty rsq).2 = st) ∧
    (∀ p, st.probe = some p → ¬ probeDistSq st.points tx ty p < rsq →
      findNearestCandidate st.points tx ty rsq = none →
      (togglePhysicsProbeAt st tx ty rsq).2 = st) := by
  have hspec := findNearestCandidate_spec st.points tx ty rsq
  rcases (Option.eq_none_or_eq_some st.probe).symm with ⟨p, hp⟩ | hp
  ·
      by_cases hrad : probeDistSq st.points tx ty p < rsq
      · have hres : togglePhysicsProbeAt st tx ty rsq =
            (some false, ⟨st.points.detachGadget p, none⟩) := by
          unfold togglePhysicsProbeAt
          rw [hp]
          dsimp only
          rw [if_pos hrad]
        rw [hres]
        refine ⟨?_, ?_, ?_, ?_, ?_, ?_, ?_⟩
        · exact ⟨fun _ => ⟨p, hp, hrad⟩, fun _ => rfl⟩
        · intro q hq _
          rfl
        · constructor
          · intro hcon
            exact absurd hcon (by simp)
          · rintro ⟨hnone, -⟩
            rw [hp] at hnone
            exact absurd hnone (by simp)
        · intro i d hnone
          rw [hp] at hnone
          exact absurd hnone (by simp)
        · constructor
          · intro hcon
            exact absurd hcon (by simp)
          · rintro ⟨hno, -⟩
            exact absurd ⟨p, hp, hrad⟩ hno
        · intro hnone
          rw [hp] at hnone
          exact absurd hnone (by simp)
        · intro q hq hqrad _
          rw [hp] at hq
          obtain rfl : q = p := by
            exact (Option.some_injective _ hq.symm)
          exact absurd hrad hqrad
      · have hres : togglePhysicsProbeAt st tx ty rsq =
            probeSearchAndPlace st tx ty rsq := by
          unfold togglePhysicsProbeAt
          rw [hp]
          dsimp only
          rw [if_neg hrad]
        cases hc : findNearestCandidate st.points tx ty rsq with
        | some c =>
            have hres2 : probeSearchAndPlace st tx ty rsq =
                (none, ⟨((st.points.detachGadget p).attachGadget c.1),
                  some c.1⟩) := by
              unfold probeSearchAndPlace
              rw [hc, hp]
            rw [hres, hres2]
            refine ⟨?_, ?_, ?_, ?_, ?_, ?_, ?_⟩
            · constructor
              · intro hcon
                exact absurd hcon (by simp)
              · rintro ⟨q, hq, hqrad⟩
                rw [hp] at hq
                obtain rfl : q = p := Option.some_injective _ hq.symm
                exact absurd hqrad hrad
            · intro q hq hqrad
              rw [hp] at hq
              obtain rfl : q = p := Option.some_injective _ hq.symm
              exact absurd hqrad hrad
            · constructor
              · intro hcon
                exact absurd hcon (by simp)
              · rintro ⟨hnone, -⟩
                rw [hp] at hnone
                exact absurd hnone (by simp)
            · intro i d hnone
              rw [hp] at hnone
              exact absurd hnone (by simp)
            · constructor
              · intro _
                refine ⟨?_, ?_⟩
                · rintro ⟨q, hq, hqrad⟩
                  rw [hp] at hq
                  obtain rfl : q = p := Option.some_injective _ hq.symm
                  exact absurd hqrad hrad
                · intro hnone
                  rw [hp] at hnone
                  exact absurd hnone (by simp)
              · intro _
                rfl
            · intro hnone
              rw [hp] at hnone
              exact absurd hnone (by simp)
            · intro q hq hqrad hcnone
              exact absurd hcnone (by simp)
        | none =>
            have hres2 : probeSearchAndPlace st tx ty rsq = (none, st) := by
              unfold probeSearchAndPlace
              rw [hc]
            rw [hres, hres2]
            refine ⟨?_, ?_, ?_, ?_, ?_, ?_, ?_⟩
            · constructor
              · intro hcon
                exact absurd hcon (by simp)
              · rintro ⟨q, hq, hqrad⟩
                rw [hp] at hq
                obtain rfl : q = p := Option.some_injective _ hq.symm
                exact absurd hqrad hrad
            · intro q hq hqrad
              rw [hp] at hq
              obtain rfl : q = p := Option.some_injective _ hq.symm
              exact absurd hqrad hrad
            · constructor
              · intro hcon
                exact absurd hcon (by simp)
              · rintro ⟨hnone, -⟩
                rw [hp] at hnone
                exact absurd hnone (by simp)
            · intro i d hnone
              rw [hp] at hnone
              exact absurd hnone (by simp)
            · constructor
              · intro _
                refine ⟨?_, fun _ => rfl⟩
                rintro ⟨q, hq, hqrad⟩
                rw [hp] at hq
                obtain rfl : q = p := Option.some_injective _ hq.symm
                exact absurd hqrad hrad
              · intro _
                rfl
            · intro hnone
              rw [hp] at hnone
              exact absurd hnone (by simp)
            · intro q hq hqrad _
              rfl
  ·
      have hres : togglePhysicsProbeAt st tx ty rsq =
          probeSearchAndPlace st tx ty rsq := by
        unfold togglePhysicsProbeAt
        rw [hp]
      cases hc : findNearestCandidate st.points tx ty rsq with
      | some c =>
          have hres2 : probeSearchAndPlace st tx ty rsq =
              (some true, ⟨st.points.attachGadget c.1, some c.1⟩) := by
            unfold probeSearchAndPlace
            rw [hc, hp]
          rw [hres, hres2]
          obtain ⟨c1, c2⟩ := c
          obtain ⟨hcount, helig, hd, hdrad, hmin⟩ := hspec.2 c1 c2 hc
          refine ⟨?_, ?_, ?_, ?_, ?_, ?_, ?_⟩
          · constructor
            · intro hcon
              exact absurd hcon (by simp)
            · rintro ⟨q, hq, -⟩
              rw [hp] at hq
              exact absurd hq.symm (by simp)
          · intro q hq _
            rw [hp] at hq
            exact absurd hq.symm (by simp)
          · exact ⟨fun _ => ⟨hp, by simp⟩, fun _ => rfl⟩
          · intro i d _ hcand
            rw [Option.some.injEq, Prod.mk.injEq] at hcand
            obtain ⟨heqi, heqd⟩ := hcand
            subst heqi
            subst heqd
            refine ⟨rfl, hcount, helig, ?_, ?_⟩
            · rw [← hd]
              exact hdrad
            · intro j hj hjel hjrad
              have := hmin j hj hjel hjrad
              rw [hd] at this
              exact this
          · constructor
            · intro hcon
              exact absurd hcon (by simp)
            · rintro ⟨-, hnone⟩
              exact absurd (hnone hp) (by simp)
          · intro _ hnone
            exact absurd hnone (by simp)
          · intro q hq _ _
            rw [hp] at hq
            exact absurd hq.symm (by simp)
      | none =>
          have hres2 : probeSearchAndPlace st tx ty rsq = (none, st) := by
            unfold probeSearchAndPlace
            rw [hc]
          rw [hres, hres2]
          refine ⟨?_, ?_, ?_, ?_, ?_, ?_, ?_⟩
          · constructor
            · intro hcon
              exact absurd hcon (by simp)
            · rintro ⟨q, hq, -⟩
              rw [hp] at hq
              exact absurd hq.symm (by simp)
          · intro q hq _
            rw [hp] at hq
            exact absurd hq.symm (by simp)
          · constructor
            · intro hcon
              exact absurd hcon (by simp)
            · rintro ⟨-, hcsome⟩
              exact absurd rfl hcsome
          · intro i d _ hcand
            exact absurd hcand (by simp)
          · constructor
            · intro _
              refine ⟨?_, fun _ => rfl⟩
              rintro ⟨q, hq, -⟩
              rw [hp] at hq
              exact absurd hq.symm (by simp)
            · intro _
              rfl
          · intro _ _
            rfl
          · intro q hq _ _
            exact absurd (hp.symm.trans hq) (by simp)

/-- Witness for C6 at a concrete input: a two-particle ship with no probe;
point 0 at (0,0) with one spring and nothing attached is the nearest eligible
particle to target (0,1) within squared radius 4, so the toggle places the
probe there (`some true`). -/
theorem togglePhysicsProbeAt_tristate_witness :
    (togglePhysicsProbeAt
      ⟨⟨2, fun i => if i = 0 then 0 else 5, fun _ => 0, fun _ => 1,
        fun _ => false⟩, none⟩ 0 1 4).1 = some true ∧
    (togglePhysicsProbeAt
      ⟨⟨2, fun i => if i = 0 then 0 else 5, fun _ => 0, fun _ => 1,
        fun _ => false⟩, none⟩ 0 1 4).2.probe = some 0 := by
  have h := togglePhysicsProbeAt_tristate
    ⟨⟨2, fun i => if i = 0 then 0 else 5, fun _ => 0, fun _ => 1,
      fun _ => false⟩, none⟩ 0 1 4
  have hcand : findNearestCandidate
      ⟨2, fun i => if i = 0 then 0 else 5, fun _ => 0, fun _ => 1,
        fun _ => false⟩ 0 1 4 = some (0, 1) := by
    unfold findNearestCandidate
    norm_num [probeCandidateStep, probeEligible, probeDistSq, squareDistance,
      List.range_succ]
  constructor
  · exact (h.2.2.1).mpr ⟨rfl, by rw [hcand]; simp⟩
  · exact ((h.2.2.2.1) 0 1 rfl hcand).1

/-! ## C8: World::ToggleImpactBombAt

`World::ToggleImpactBombAt` (src/unnamed/part_005, lines 478-494) walks the
owned ships from `rbegin` to `rend` — reverse insertion order, last-added
first — and stops at the first ship whose toggle succeeds. The per-ship
toggle (`Gadgets::ToggleImpactBombAt` / `Gadgets::ToggleGadgetAt`) is missing
from the source tree and is modelled from the spec below. Ships are held in
insertion order, the last-added ship last. -/

theorem probeDistSq_attachGadget (pts : ProbePoints) (i : ℕ) (tx ty : ℚ)
    (j : ℕ) : probeDistSq (pts.attachGadget i) tx ty j =
      probeDistSq pts tx ty j := rfl

theorem detachGadget_attachGadget (pts : ProbePoints) (i : ℕ)
    (h : pts.isGadgetAttached i = false) :
    (pts.attachGadget i).detachGadget i = pts := by
  obtain ⟨cnt, px, py, cs, att⟩ := pts
  unfold ProbePoints.attachGadget ProbePoints.detachGadget
  simp only
  congr 1
  funext j
  by_cases hj : j = i
  · subst hj
    simp only [if_pos rfl]
    exact h.symm
  · simp only [if_neg hj]

theorem find?_append_of_eq_none {α : Type} (p : α → Bool) (l1 l2 : List α)
    (h : l1.find? p = none) : (l1 ++ l2).find? p = l2.find? p := by
  induction l1 with
  | nil => rfl
  | cons a tl ih =>
      cases hpa : p a with
      | true =>
          simp only [List.find?_cons, hpa] at h
          exact absurd h (by simp)
      | false =>
          simp only [List.cons_append, List.find?_cons, hpa] at h ⊢
          exact ih h

/-- The ship state the impact-bomb toggle manipulates: particles plus the
host points of the currently placed impact bombs. -/
structure ImpactBombShip where
  points : ProbePoints
  bombs : List ℕ

/-- Modelled from the spec: the per-ship toggle
`Gadgets::ToggleImpactBombAt` / `Gadgets::ToggleGadgetAt` is missing from the
source tree (only `World`\'s dispatch is present). Spec §4.3 and §8: a toggle
removes an existing gadget found within the search radius (a success),
otherwise places a new gadget on the nearest eligible particle — at least one
connected spring, no gadget attached — within the radius, attaching it (a
success), otherwise fails; the particle is detached on removal. -/
def toggleImpactBombAtShip (st : ImpactBombShip) (tx ty rsq : ℚ) :
    Bool × ImpactBombShip :=
  match st.bombs.find? (fun b => decide (probeDistSq st.points tx ty b < rsq)) with
  | some b => (true, ⟨st.points.detachGadget b, st.bombs.erase b⟩)
  | none =>
      match findNearestCandidate st.points tx ty rsq with
      | some c => (true, ⟨st.points.attachGadget c.1, st.bombs ++ [c.1]⟩)
      | none => (false, st)

/-- Mirrors `World::ToggleImpactBombAt` (part_005 lines 478-494): reverse insertion
order, stopping at the first ship that places or removes. -/
def worldToggleImpactBombAt (tx ty rsq : ℚ) :
    List ImpactBombShip → List ImpactBombShip × Bool
  | [] => ([], false)
  | ship :: rest =>
      let r := worldToggleImpactBombAt tx ty rsq rest
      if r.2 then (ship :: r.1, true)
      else ((toggleImpactBombAtShip ship tx ty rsq).2 :: r.1,
        (toggleImpactBombAtShip ship tx ty rsq).1)

theorem worldToggleImpactBombAt_cons (tx ty rsq : ℚ) (ship : ImpactBombShip)
    (rest : List ImpactBombShip) :
    worldToggleImpactBombAt tx ty rsq (ship :: rest) =
      if (worldToggleImpactBombAt tx ty rsq rest).2 then
        (ship :: (worldToggleImpactBombAt tx ty rsq rest).1, true)
      else ((toggleImpactBombAtShip ship tx ty rsq).2 ::
          (worldToggleImpactBombAt tx ty rsq rest).1,
        (toggleImpactBombAtShip ship tx ty rsq).1) := rfl

theorem toggleImpactBombAtShip_fail_unchanged (st : ImpactBombShip)
    (tx ty rsq : ℚ) (h : (toggleImpactBombAtShip st tx ty rsq).1 = false) :
    (toggleImpactBombAtShip st tx ty rsq).2 = st := by
  cases hfind : st.bombs.find?
      (fun b => decide (probeDistSq st.points tx ty b < rsq)) with
  | some b =>
      have hval : toggleImpactBombAtShip st tx ty rsq =
          (true, ⟨st.points.detachGadget b, st.bombs.erase b⟩) := by
        unfold toggleImpactBombAtShip
        rw [hfind]
      rw [hval] at h
      exact absurd h (by simp)
  | none =>
      cases hcand : findNearestCandidate st.points tx ty rsq with
      | some c =>
          have hval : toggleImpactBombAtShip st tx ty rsq =
              (true, ⟨st.points.attachGadget c.1, st.bombs ++ [c.1]⟩) := by
            unfold toggleImpactBombAtShip
            rw [hfind, hcand]
          rw [hval] at h
          exact absurd h (by simp)
      | none =>
          have hval : toggleImpactBombAtShip st tx ty rsq = (false, st) := by
            unfold toggleImpactBombAtShip
            rw [hfind, hcand]
          rw [hval]

/-- Place-then-remove at ship level: when none of the ship\'s bombs is within
the radius (and each is attached, the code\'s invariant), a failing toggle
leaves the ship unchanged, and a successful toggle places a bomb that the
next toggle at the same position removes, restoring the ship exactly. -/
theorem toggleImpactBombAtShip_place_then_remove (st : ImpactBombShip)
    (tx ty rsq : ℚ)
    (hnb : ∀ b ∈ st.bombs, ¬ probeDistSq st.points tx ty b < rsq)
    (hatt : ∀ b ∈ st.bombs, st.points.isGadgetAttached b = true) :
    ((toggleImpactBombAtShip st tx ty rsq).1 = false →
      (toggleImpactBombAtShip st tx ty rsq).2 = st) ∧
    ((toggleImpactBombAtShip st tx ty rsq).1 = true →
      toggleImpactBombAtShip (toggleImpactBombAtShip st tx ty rsq).2 tx ty
        rsq = (true, st)) := by
  have hfind : st.bombs.find?
      (fun b => decide (probeDistSq st.points tx ty b < rsq)) = none := by
    rw [List.find?_eq_none]
    intro b hb
    simp only [decide_eq_true_eq]
    exact hnb b hb
  refine ⟨toggleImpactBombAtShip_fail_unchanged st tx ty rsq, ?_⟩
  intro hsucc
  cases hcand : findNearestCandidate st.points tx ty rsq with
  | none =>
      have : (toggleImpactBombAtShip st tx ty rsq).1 = false := by
        unfold toggleImpactBombAtShip
        rw [hfind, hcand]
      rw [this] at hsucc
      exact absurd hsucc (by simp)
  | some c =>
      obtain ⟨c1, c2⟩ := c
      obtain ⟨hcount, helig, hd, hdrad, hmin⟩ :=
        (findNearestCandidate_spec st.points tx ty rsq).2 c1 c2 hcand
      have hres1 : toggleImpactBombAtShip st tx ty rsq =
          (true, ⟨st.points.attachGadget c1, st.bombs ++ [c1]⟩) := by
        unfold toggleImpactBombAtShip
        rw [hfind, hcand]
      rw [hres1]
      have hnotin : c1 ∉ st.bombs := by
        intro hin
        have h1 := hatt c1 hin
        rw [helig.2] at h1
        exact absurd h1 (by simp)
      have hipos : probeDistSq st.points tx ty c1 < rsq := by
        rw [← hd]
        exact hdrad
      -- the second toggle finds the just-placed bomb within the radius
      have hfind2 : (st.bombs ++ [c1]).find?
          (fun b => decide (probeDistSq (st.points.attachGadget c1) tx ty b <
            rsq)) = some c1 := by
        have heqp : (fun b => decide (probeDistSq (st.points.attachGadget c1)
            tx ty b < rsq)) =
            (fun b => decide (probeDistSq st.points tx ty b < rsq)) := rfl
        rw [heqp]
        rw [find?_append_of_eq_none _ st.bombs [c1] hfind]
        rw [List.find?_cons]
        rw [decide_eq_true hipos]
      have hres2 : toggleImpactBombAtShip
          ⟨st.points.attachGadget c1, st.bombs ++ [c1]⟩ tx ty rsq =
          (true, ⟨(st.points.attachGadget c1).detachGadget c1,
            (st.bombs ++ [c1]).erase c1⟩) := by
        unfold toggleImpactBombAtShip
        rw [hfind2]
      rw [hres2]
      have herase : (st.bombs ++ [c1]).erase c1 = st.bombs := by
        rw [List.erase_append_right _ hnotin, List.erase_cons_head,
          List.append_nil]
      have hpoints : (st.points.attachGadget c1).detachGadget c1 =
          st.points := detachGadget_attachGadget st.points c1 helig.2
      rw [herase, hpoints]

/-- C8. `World::ToggleImpactBombAt` searches the owned ships in reverse
insertion order and stops at the first that places or removes a bomb, so the
most-recently-added ship wins ties: when no ship handles the toggle the
world is unchanged and every per-ship toggle fails, and when some ship does,
the handling ship is the one of greatest index among the ships whose toggle
succeeds — exactly it is replaced and every later-added ship is untouched.
Moreover, when no ship initially has a bomb within the search radius (with
each placed bomb attached to its particle), two consecutive calls at the
same position form an idempotent pair: the first call places the gadget, the
second removes it, and the world returns to exactly the initial state with
the same handled flag. -/
theorem worldToggleImpactBombAt_reverse_order_and_pair (tx ty rsq : ℚ)
    (l : List ImpactBombShip)
    (hnb : ∀ s ∈ l, ∀ b ∈ s.bombs, ¬ probeDistSq s.points tx ty b < rsq)
    (hatt : ∀ s ∈ l, ∀ b ∈ s.bombs, s.points.isGadgetAttached b = true) :
    ((worldToggleImpactBombAt tx ty rsq l).2 = false →
      (worldToggleImpactBombAt tx ty rsq l).1 = l ∧
      ∀ s ∈ l, (toggleImpactBombAtShip s tx ty rsq).1 = false) ∧
    ((worldToggleImpactBombAt tx ty rsq l).2 = true →
      ∃ k, ∃ hk : k < l.length,
        (toggleImpactBombAtShip (l.get ⟨k, hk⟩) tx ty rsq).1 = true ∧
        (∀ j, ∀ hj : j < l.length, k < j →
          (toggleImpactBombAtShip (l.get ⟨j, hj⟩) tx ty rsq).1 = false) ∧
        (worldToggleImpactBombAt tx ty rsq l).1 =
          l.set k (toggleImpactBombAtShip (l.get ⟨k, hk⟩) tx ty rsq).2) ∧
    (worldToggleImpactBombAt tx ty rsq
        ((worldToggleImpactBombAt tx ty rsq l).1) =
      (l, (worldToggleImpactBombAt tx ty rsq l).2)) := by
  induction l with
  | nil =>
      exact ⟨fun _ => ⟨rfl, by simp⟩,
        fun hcon => absurd hcon Bool.false_ne_true, rfl⟩
  | cons ship rest ih =>
      have hnbr : ∀ s ∈ rest, ∀ b ∈ s.bombs,
          ¬ probeDistSq s.points tx ty b < rsq :=
        fun s hs => hnb s (List.mem_cons_of_mem ship hs)
      have hattr : ∀ s ∈ rest, ∀ b ∈ s.bombs,
          s.points.isGadgetAttached b = true :=
        fun s hs => hatt s (List.mem_cons_of_mem ship hs)
      obtain ⟨ih1, ih2, ih3⟩ := ih hnbr hattr
      have hshipround := toggleImpactBombAtShip_place_then_remove ship tx ty
        rsq (hnb ship (List.mem_cons_self ship rest))
        (hatt ship (List.mem_cons_self ship rest))
      cases hr2 : (worldToggleImpactBombAt tx ty rsq rest).2 with
      | true =>
          have hres : worldToggleImpactBombAt tx ty rsq (ship :: rest) =
              (ship :: (worldToggleImpactBombAt tx ty rsq rest).1, true) := by
            rw [worldToggleImpactBombAt_cons, if_pos hr2]
          obtain ⟨k, hk, hksucc, hkfail, hkset⟩ := ih2 hr2
          refine ⟨?_, ?_, ?_⟩
          · intro hcon
            rw [hres] at hcon
            exact absurd hcon (by simp)
          · intro _
            refine ⟨k + 1, by simpa using Nat.succ_lt_succ hk, hksucc, ?_, ?_⟩
            · intro j hj hkj
              cases j with
              | zero => omega
              | succ j0 =>
                  have hj0 : j0 < rest.length := by
                    simpa using Nat.lt_of_succ_lt_succ hj
                  exact hkfail j0 hj0 (by omega)
            · rw [hres]
              show ship :: (worldToggleImpactBombAt tx ty rsq rest).1 =
                ship :: rest.set k
                  (toggleImpactBombAtShip (rest.get ⟨k, hk⟩) tx ty rsq).2
              rw [hkset]
          · rw [hres]
            rw [worldToggleImpactBombAt_cons]
            have hinner : worldToggleImpactBombAt tx ty rsq
                ((worldToggleImpactBombAt tx ty rsq rest).1) =
                (rest, true) := by
              rw [ih3, hr2]
            rw [hinner]
            simp
      | false =>
          obtain ⟨hrest1, hrestfail⟩ := ih1 hr2
          have hres : worldToggleImpactBombAt tx ty rsq (ship :: rest) =
              ((toggleImpactBombAtShip ship tx ty rsq).2 :: rest,
                (toggleImpactBombAtShip ship tx ty rsq).1) := by
            rw [worldToggleImpactBombAt_cons, if_neg (by rw [hr2]; simp),
              hrest1]
          cases hs1 : (toggleImpactBombAtShip ship tx ty rsq).1 with
          | false =>
              have hship2 : (toggleImpactBombAtShip ship tx ty rsq).2 =
                  ship := hshipround.1 hs1
              have hres' : worldToggleImpactBombAt tx ty rsq (ship :: rest) =
                  (ship :: rest, false) := by
                rw [hres, hship2, hs1]
              refine ⟨?_, ?_, ?_⟩
              · intro _
                rw [hres']
                refine ⟨rfl, ?_⟩
                intro s hs
                rcases List.mem_cons.mp hs with rfl | hs2
                · exact hs1
                · exact hrestfail s hs2
              · intro hcon
                rw [hres'] at hcon
                exact absurd hcon (by simp)
              · rw [hres']
                show worldToggleImpactBombAt tx ty rsq (ship :: rest) =
                  (ship :: rest, false)
                exact hres'
          | true =>
              have hround : toggleImpactBombAtShip
                  (toggleImpactBombAtShip ship tx ty rsq).2 tx ty rsq =
                  (true, ship) := hshipround.2 hs1
              have hres' : worldToggleImpactBombAt tx ty rsq (ship :: rest) =
                  ((toggleImpactBombAtShip ship tx ty rsq).2 :: rest,
                    true) := by
                rw [hres, hs1]
              refine ⟨?_, ?_, ?_⟩
              · intro hcon
                rw [hres'] at hcon
                exact absurd hcon (by simp)
              · intro _
                refine ⟨0, by simp, hs1, ?_, ?_⟩
                · intro j hj hkj
                  cases j with
                  | zero => omega
                  | succ j0 =>
                      have hj0 : j0 < rest.length := by
                        simpa using Nat.lt_of_succ_lt_succ hj
                      exact hrestfail (rest.get ⟨j0, hj0⟩)
                        (rest.get_mem j0 hj0)
                · rw [hres']
                  rfl
              · have hinner : worldToggleImpactBombAt tx ty rsq rest =
                    (rest, false) := Prod.ext_iff.mpr ⟨hrest1, hr2⟩
                rw [hres', worldToggleImpactBombAt_cons, hinner]
                show ((toggleImpactBombAtShip
                    (toggleImpactBombAtShip ship tx ty rsq).2 tx ty rsq).2 ::
                    rest,
                  (toggleImpactBombAtShip
                    (toggleImpactBombAtShip ship tx ty rsq).2 tx ty rsq).1) =
                  (ship :: rest, true)
                rw [hround]

/-- Witness for C8 at a concrete input: two one-particle ships, each with an
eligible particle at the origin and no bombs; toggling twice at (0,1) with
squared radius 4 restores the world exactly. -/
theorem worldToggleImpactBombAt_pair_witness :
    worldToggleImpactBombAt 0 1 4
        ((worldToggleImpactBombAt 0 1 4
          [⟨⟨1, fun _ => 0, fun _ => 0, fun _ => 1, fun _ => false⟩, []⟩,
           ⟨⟨1, fun _ => 0, fun _ => 0, fun _ => 1, fun _ => false⟩, []⟩]).1) =
      ([⟨⟨1, fun _ => 0, fun _ => 0, fun _ => 1, fun _ => false⟩, []⟩,
        ⟨⟨1, fun _ => 0, fun _ => 0, fun _ => 1, fun _ => false⟩, []⟩],
       (worldToggleImpactBombAt 0 1 4
          [⟨⟨1, fun _ => 0, fun _ => 0, fun _ => 1, fun _ => false⟩, []⟩,
           ⟨⟨1, fun _ => 0, fun _ => 0, fun _ => 1, fun _ => false⟩, []⟩]).2) := by
  exact (worldToggleImpactBombAt_reverse_order_and_pair 0 1 4
    [⟨⟨1, fun _ => 0, fun _ => 0, fun _ => 1, fun _ => false⟩, []⟩,
     ⟨⟨1, fun _ => 0, fun _ => 0, fun _ => 1, fun _ => false⟩, []⟩]
    (by simp) (by simp)).2.2

end FloatingSandbox
